import Mathlib

/-
Verification of the sms_campaign core logic: the roster merger
(src/sms_campaign/models/customer.py), the campaign eligibility filter and
message renderer (src/sms_campaign/models/campaign.py), and the message
analyzer (src/sms_campaign/utils/message_analyzer.py).

Data frames are modelled as rows of (field, cell) association lists where a
cell is `Option String` and `none` stands for a null value (NaN/None/NaT).
A pandas DataFrame keeps one column list for all rows; here each row carries
its fields, and frame-level column checks become per-row field checks, which
agree on the column-homogeneous frames pandas can actually represent.
-/

namespace SmsCampaign

/-- A field (column) name. -/
abbrev Field := String

/-- A cell value; `none` models a pandas null (NaN / None / NaT). -/
abbrev Cell := Option String

/-- A customer row: association list from field name to cell value.
A field that is absent models a column the frame does not have. -/
abbrev Row := List (Field × Cell)

/-- Look up a field in a row: `none` = column absent,
`some none` = column present but null, `some (some v)` = value `v`. -/
def getField (r : Row) (f : Field) : Option Cell :=
  (r.find? (fun p => p.1 == f)).map (fun p => p.2)

/-- The value seen at a field, with an absent column reading as null
(pandas cell access after column alignment). -/
def cellVal (r : Row) (f : Field) : Cell :=
  (getField r f).join

/-- Overwrite the first entry of field `f` (append it when absent);
models assignment to one cell of a data-frame row. -/
def setField : Row → Field → Cell → Row
  | [], f, v => [(f, v)]
  | p :: r, f, v => if p.1 == f then (f, v) :: r else p :: setField r f v

/-- Column-name configuration of `CustomerDataMerger.__init__`
(customer.py lines 13-28). -/
structure MergerCfg where
  phoneCol : Field
  lastSmsSentCol : Field
  lastSmsStatusCol : Field
  optOutCol : Field
  optOutDateCol : Field
  lastReviewSentCol : Field
deriving DecidableEq, Repr

/-- The default column names from the config lookups in `__init__`. -/
def defaultCfg : MergerCfg :=
  { phoneCol := "phone_number"
    lastSmsSentCol := "last_sms_sent_date"
    lastSmsStatusCol := "last_sms_status"
    optOutCol := "SMS_Opt_Out"
    optOutDateCol := "Opt_Out_Date"
    lastReviewSentCol := "last_review_sent_date" }

/-- A roster indexed by phone key, as after `set_index(phone_column)`
(customer.py line 68-69). The key is the phone cell value. -/
abbrev IRoster := List (Cell × Row)

/-- First row bound to a key, mirroring label lookup on a unique index. -/
def lookupKey (rs : IRoster) (k : Cell) : Option Row :=
  (rs.find? (fun p => p.1 == k)).map (fun p => p.2)

/-- Whether a key occurs in an indexed roster. -/
def hasKey (rs : IRoster) (k : Cell) : Bool :=
  (lookupKey rs k).isSome

/-- Cell of the record of key `k` at field `f`; `none` when `k` is absent. -/
def rosterCell (rs : IRoster) (k : Cell) (f : Field) : Option Cell :=
  (lookupKey rs k).map (fun r => cellVal r f)

/-- New value wins unless it is null (the cell rule of
`DataFrame.combine_first`, customer.py line 74). -/
def combineCell (a b : Cell) : Cell :=
  match a with
  | some v => some v
  | none => b

/-- `combine_first` on one aligned row pair: fields of the new row, null
cells filled from the old row, then the old-only fields. -/
def combineRow (newR oldR : Row) : Row :=
  newR.map (fun p =>
    match p.2 with
    | some v => (p.1, some v)
    | none => (p.1, cellVal oldR p.1)) ++
  oldR.filter (fun p => (getField newR p.1).isNone)

/-- Gap-fill one new row from the old record of its key, when there is
one. -/
def combineWithOld (oldRs : IRoster) (k : Cell) (r : Row) : Row :=
  match lookupKey oldRs k with
  | some oldRow => combineRow r oldRow
  | none => r

/-- `new_df_indexed.combine_first(old_df_indexed)` (customer.py line 74):
rows of the new roster gap-filled from the old one, followed by the old-only
rows. (pandas sorts the union index; claims here are key lookups, so the
relative order of the two blocks is all that is kept.) -/
def combineFirstRows (newRs oldRs : IRoster) : IRoster :=
  newRs.map (fun p => (p.1, combineWithOld oldRs p.1 p.2)) ++
  oldRs.filter (fun p => !(hasKey newRs p.1))

/-- Python `str.lower` at the character level (ASCII case mapping, which
agrees with Python on the ASCII opt-out markers compared against). -/
def pyLower (s : String) : String :=
  (s.toList.map Char.toLower).asString

/-- The opted-out test of customer.py line 82-84:
`astype(str).str.lower().isin(["yes", "y", "true"])`; a null cell
stringifies to "nan" and never matches. -/
def isOptOutValue (c : Cell) : Bool :=
  match c with
  | none => false
  | some s => ["yes", "y", "true"].contains (pyLower s)

/-- Whether the record of key `k` carries an opted-out consent flag. -/
def rosterOpted (cfg : MergerCfg) (rs : IRoster) (k : Cell) : Bool :=
  match lookupKey rs k with
  | some r => isOptOutValue (cellVal r cfg.optOutCol)
  | none => false

/-- Opt-out enforcement on one merged row (customer.py lines 86-99): a row
whose key was opted out in the old roster gets consent flag "Yes", and its
opt-out date is overwritten with the old cell whenever the old roster has
the opt-out date column. -/
def enforceRow (cfg : MergerCfg) (oldRs : IRoster) (k : Cell) (r : Row) : Row :=
  match lookupKey oldRs k with
  | none => r
  | some oldRow =>
    if isOptOutValue (cellVal oldRow cfg.optOutCol) then
      match getField oldRow cfg.optOutDateCol with
      | some d => setField (setField r cfg.optOutCol (some "Yes")) cfg.optOutDateCol d
      | none => setField r cfg.optOutCol (some "Yes")
    else r

/-- Opt-out enforcement of customer.py lines 76-99 over the whole merged
roster. -/
def enforceOptOut (cfg : MergerCfg) (oldRs : IRoster) (merged : IRoster) : IRoster :=
  merged.map (fun p => (p.1, enforceRow cfg oldRs p.1 p.2))

/-- The indexed core of `merge_customer_lists` (customer.py lines 67-99):
combine-first then sticky opt-out enforcement. -/
def mergeRosters (cfg : MergerCfg) (oldRs newRs : IRoster) : IRoster :=
  enforceOptOut cfg oldRs (combineFirstRows newRs oldRs)

/-- A customer data frame: its column list plus its rows. -/
structure DF where
  cols : List Field
  rows : List Row
deriving DecidableEq, Repr

/-- Add a column filled with `v` when it is missing (the
`if col not in merged_df.columns: merged_df[col] = ...` idiom). -/
def addColIfMissing (df : DF) (f : Field) (v : Cell) : DF :=
  if f ∈ df.cols then df
  else { cols := df.cols ++ [f], rows := df.rows.map (fun r => r ++ [(f, v)]) }

/-- The no-previous-data branch of `merge_customer_lists` (customer.py
lines 50-59): the new frame with the last-SMS-sent, last-SMS-status and
last-review-sent columns initialized to null when missing. -/
def initNewBranch (cfg : MergerCfg) (df : DF) : DF :=
  addColIfMissing
    (addColIfMissing
      (addColIfMissing df cfg.lastSmsSentCol none)
      cfg.lastSmsStatusCol none)
    cfg.lastReviewSentCol none

/-- `df.set_index(phone_column)` (customer.py lines 68-69): each row keyed
by its phone cell, the phone field moved out of the row. -/
def setIndex (phoneCol : Field) (df : DF) : IRoster :=
  df.rows.map (fun r => (cellVal r phoneCol, r.filter (fun p => !(p.1 == phoneCol))))

/-- `reset_index` after the merge (customer.py lines 101-105): the phone
key becomes the leading column again. -/
def resetIndex (phoneCol : Field) (rs : IRoster) : DF :=
  { cols := phoneCol :: (rs.foldl (fun acc p => acc ++ p.2.map (fun q => q.1)) []).dedup
    rows := rs.map (fun p => (phoneCol, p.1) :: p.2) }

/-- `CustomerDataMerger.merge_customer_lists` (customer.py lines 30-113).
Errors model the `ValueError` raised for a missing phone column. -/
def merge_customer_lists (cfg : MergerCfg) (old : Option DF) (new : DF) :
    Except String DF :=
  match old with
  | none => Except.ok (initNewBranch cfg new)
  | some o =>
    if o.rows.isEmpty then Except.ok (initNewBranch cfg new)
    else if cfg.phoneCol ∉ o.cols then
      Except.error "Phone column not found in old customer list"
    else if cfg.phoneCol ∉ new.cols then
      Except.error "Phone column not found in new customer list"
    else
      Except.ok
        (addColIfMissing
          (addColIfMissing
            (resetIndex cfg.phoneCol (mergeRosters cfg (setIndex cfg.phoneCol o) (setIndex cfg.phoneCol new)))
            cfg.lastSmsSentCol none)
          cfg.lastSmsStatusCol none)

/-- First row of a frame whose phone cell equals `k` (label lookup before
indexing). -/
def findRowByKey (phoneCol : Field) (df : DF) (k : Cell) : Option Row :=
  df.rows.find? (fun r => cellVal r phoneCol == k)

/-- Keep rows whose phone key was not seen yet
(`drop_duplicates(subset=[phone_column], keep="first")`). -/
def dedupRowsAux (phoneCol : Field) (seen : List Cell) : List Row → List Row
  | [] => []
  | r :: rest =>
    let k := cellVal r phoneCol
    if k ∈ seen then dedupRowsAux phoneCol seen rest
    else r :: dedupRowsAux phoneCol (k :: seen) rest

/-- `CustomerDataMerger.deduplicate` (customer.py lines 174-190): drop
later rows with an already-seen phone key and report how many went. -/
def deduplicate (phoneCol : Field) (df : DF) : DF × Nat :=
  if phoneCol ∈ df.cols then
    let kept := dedupRowsAux phoneCol [] df.rows
    ({ cols := df.cols, rows := kept }, df.rows.length - kept.length)
  else (df, 0)

/-- Number of distinct phone keys among the rows of a frame. -/
def distinctKeyCount (phoneCol : Field) (df : DF) : Nat :=
  (df.rows.map (fun r => cellVal r phoneCol)).dedup.length

/-- Python str.strip default whitespace (the characters relevant here). -/
def isWS (c : Char) : Bool :=
  c == ' ' || c == '\t' || c == '\n' || c == '\r' || c == '\x0b' || c == '\x0c'

/-- Strip leading and trailing whitespace, as Python `str.strip()`. -/
def trimChars (cs : List Char) : List Char :=
  ((cs.dropWhile isWS).reverse.dropWhile isWS).reverse

/-- `CustomerDataMerger.normalize_single_phone` (customer.py lines 115-150)
on the character list of a string input. Python `isalnum` also accepts
non-ASCII alphanumerics; phone inputs are ASCII, where the two agree. -/
def normalizeChars (cs : List Char) : Option (List Char) :=
  if cs.map Char.toLower = "nan".toList then none
  else
    let s1 := trimChars cs
    let s2 := if s1.reverse.take 2 = ['0', '.'] then s1.take (s1.length - 2) else s1
    let clean := s2.filter (fun c => c.isAlphanum || c == '+')
    if clean = [] then none
    else if clean.head? = some '+' then some clean
    else if clean.length = 10 then some ('+' :: '1' :: clean)
    else if clean.length = 11 ∧ clean.head? = some '1' then some ('+' :: clean)
    else some ('+' :: clean)

/-- String-level wrapper of `normalize_single_phone`. -/
def normalize_single_phone (phone : String) : Option String :=
  (normalizeChars phone.toList).map List.asString

/-- A calendar date (the date part of a Python datetime). -/
structure Date where
  year : Int
  month : Nat
  day : Nat
deriving DecidableEq, Repr

/-- Gregorian leap-year rule. -/
def isLeapYear (y : Int) : Bool :=
  y % 4 == 0 && (y % 100 != 0 || y % 400 == 0)

/-- Days in a month of the Gregorian calendar. -/
def daysInMonth (y : Int) (m : Nat) : Nat :=
  match m with
  | 1 => 31 | 2 => if isLeapYear y then 29 else 28
  | 3 => 31 | 4 => 30 | 5 => 31 | 6 => 30 | 7 => 31
  | 8 => 31 | 9 => 30 | 10 => 31 | 11 => 30 | _ => 31

/-- The next calendar day. -/
def nextDay (d : Date) : Date :=
  if d.day < daysInMonth d.year d.month then { d with day := d.day + 1 }
  else if d.month < 12 then { year := d.year, month := d.month + 1, day := 1 }
  else { year := d.year + 1, month := 1, day := 1 }

/-- The previous calendar day. -/
def prevDay (d : Date) : Date :=
  if 1 < d.day then { d with day := d.day - 1 }
  else if 1 < d.month then
    { year := d.year, month := d.month - 1, day := daysInMonth d.year (d.month - 1) }
  else { year := d.year - 1, month := 12, day := 31 }

/-- Iterate `nextDay`. -/
def addDaysNat (d : Date) : Nat → Date
  | 0 => d
  | n + 1 => addDaysNat (nextDay d) n

/-- Iterate `prevDay`. -/
def subDaysNat (d : Date) : Nat → Date
  | 0 => d
  | n + 1 => subDaysNat (prevDay d) n

/-- `d + timedelta(days=n)` at day granularity. -/
def addDays (d : Date) (n : Int) : Date :=
  if 0 ≤ n then addDaysNat d n.toNat else subDaysNat d n.natAbs

/-- Lexicographic order on dates (`datetime` comparison at day grain). -/
def dateLe (a b : Date) : Bool :=
  a.year < b.year ||
  (a.year == b.year &&
    (a.month < b.month || (a.month == b.month && a.day ≤ b.day)))

/-- Does `needle` start `hay`? -/
def leadMatch : List Char → List Char → Bool
  | [], _ => true
  | _ :: _, [] => false
  | a :: as, b :: bs => a == b && leadMatch as bs

/-- Python `needle in hay` on strings, as character lists. -/
def hasSub (needle hay : List Char) : Bool :=
  (List.range (hay.length + 1)).any (fun i => leadMatch needle (hay.drop i))

/-- The campaign fields the eligibility filter and renderer consume
(campaign.py `Campaign.__init__` after numeric parsing). -/
structure Campaign where
  textPrompt : String
  characterLimit : Option Int
  campaignType : String
  filterLastVisitDays : Option Int
  filterLastSmsDays : Option Int
deriving DecidableEq, Repr

/-- `Campaign.is_birthday_campaign` (campaign.py lines 91-99). -/
def is_birthday_campaign (c : Campaign) : Bool :=
  hasSub "birthday".toList (pyLower c.campaignType).toList

/-- `Campaign.is_anniversary_campaign` (campaign.py lines 101-109). -/
def is_anniversary_campaign (c : Campaign) : Bool :=
  hasSub "anniversary".toList (pyLower c.campaignType).toList

/-- `Campaign.is_announce_campaign` (campaign.py lines 111-119). -/
def is_announce_campaign (c : Campaign) : Bool :=
  hasSub "announce".toList (pyLower c.campaignType).toList

/-- Python slice `cs[:n]` with a possibly negative bound. -/
def pySliceTo (cs : List Char) (n : Int) : List Char :=
  if 0 ≤ n then cs.take n.toNat
  else cs.take (cs.length - min cs.length n.natAbs)

/-- The character-limit step of `CampaignProcessor.generate_message`
(campaign.py lines 417-419), applied to the substituted message. The
Python guard `campaign.character_limit and len(message) > limit` treats
a limit of 0 as unset. -/
def applyCharacterLimit (limit : Option Int) (message : String) : String :=
  match limit with
  | none => message
  | some l =>
    if l != 0 && l < (message.length : Int) then
      (pySliceTo message.toList (l - 3)).asString ++ "..."
    else message

/-- Message encoding classes of `MessageAnalyzer`. -/
inductive Encoding where
  | gsm7
  | ucs2
deriving DecidableEq, Repr

/-- `MessageAnalyzer.GSM_7_BASIC` (message_analyzer.py lines 11-14). -/
def GSM_7_BASIC : List Char :=
  ("@£$¥èéùìòÇ\nØø\rÅåΔ_ΦΓΛΩΠΨΣΘΞÆæßÉ !\"#¤%&\x27()*+,-./0123456789:;<=>?¡ABCDEFGHIJKLMNOPQRSTUVWXYZÄÖÑÜ§¿abcdefghijklmnopqrstuvwxyzäöñüà").toList

/-- `MessageAnalyzer.GSM_7_EXTENDED` (message_analyzer.py line 17). -/
def GSM_7_EXTENDED : List Char :=
  ("^\x7b\x7d\\[~]|€").toList

/-- `MessageAnalyzer.UNICODE_TRIGGERS` (message_analyzer.py line 35). -/
def UNICODE_TRIGGERS : List Char :=
  ("‘’“”—–©®™±×÷").toList

/-- The code-point ranges of `MessageAnalyzer.EMOJI_PATTERN`
(message_analyzer.py lines 20-32). -/
def emojiRanges : List (Nat × Nat) :=
  [(0x1F600, 0x1F64F), (0x1F300, 0x1F5FF), (0x1F680, 0x1F6FF),
   (0x1F1E0, 0x1F1FF), (0x2702, 0x27B0), (0x24C2, 0x1F251),
   (0x1F900, 0x1F9FF), (0x1F018, 0x1F270)]

/-- Membership in the emoji character class. -/
def isEmojiChar (c : Char) : Bool :=
  emojiRanges.any (fun p => p.1 ≤ c.toNat && c.toNat ≤ p.2)

/-- The defined 7-bit alphabet: basic set plus extended set. -/
def inSevenBitAlphabet (c : Char) : Bool :=
  GSM_7_BASIC.contains c || GSM_7_EXTENDED.contains c

/-- The per-character condition of message_analyzer.py lines 125-130 for
adding a character to the Unicode-trigger set. -/
def isUnicodeTrigger (c : Char) : Bool :=
  !(inSevenBitAlphabet c) && (UNICODE_TRIGGERS.contains c || 127 < c.toNat)

/-- Maximal runs of emoji characters, as `EMOJI_PATTERN.findall` returns
them for the one-or-more character-class pattern. -/
def emojiRunsAux (acc : List Char) : List Char → List (List Char)
  | [] => if acc.isEmpty then [] else [acc.reverse]
  | c :: cs =>
    if isEmojiChar c then emojiRunsAux (c :: acc) cs
    else if acc.isEmpty then emojiRunsAux [] cs
    else acc.reverse :: emojiRunsAux [] cs

/-- All maximal emoji runs of a message. -/
def emojiRuns (m : List Char) : List (List Char) :=
  emojiRunsAux [] m

/-- `MessageAnalyzer._detect_encoding` (message_analyzer.py lines 109-135):
emoji presence short-circuits to Unicode with the emoji runs collected;
otherwise characters outside the 7-bit alphabet that are known triggers or
above code point 127 form the trigger set, and a non-empty set means
Unicode. The Python set of single characters is modelled as a
duplicate-free list. -/
def detectEncoding (m : List Char) : Encoding × List (List Char) :=
  if m.any isEmojiChar then (Encoding.ucs2, emojiRuns m)
  else
    let triggers := (m.filter isUnicodeTrigger).dedup
    if triggers.isEmpty then (Encoding.gsm7, [])
    else (Encoding.ucs2, triggers.map (fun c => [c]))

/-- `MessageAnalyzer._calculate_effective_length` (message_analyzer.py
lines 137-148): extended characters count double under GSM-7. -/
def effectiveLength (m : List Char) (e : Encoding) : Nat :=
  match e with
  | Encoding.gsm7 => m.length + m.countP (fun c => GSM_7_EXTENDED.contains c)
  | Encoding.ucs2 => m.length

/-- `MessageAnalyzer._calculate_segments` (message_analyzer.py lines
150-167). -/
def calculateSegments (eff : Nat) (e : Encoding) : Nat :=
  if eff == 0 then 0
  else
    match e with
    | Encoding.gsm7 => if eff ≤ 160 then 1 else (eff - 1) / 153 + 1
    | Encoding.ucs2 => if eff ≤ 70 then 1 else (eff - 1) / 67 + 1

/-- A cell of the eligibility pipeline: null, a raw string, or a parsed
timestamp (at day granularity). -/
inductive PValue where
  | null
  | str (v : String)
  | date (dt : Date)
deriving DecidableEq, Repr

/-- A pipeline row. -/
abbrev PRow := List (Field × PValue)

/-- A pipeline data frame. -/
structure PFrame where
  cols : List Field
  rows : List PRow
deriving DecidableEq, Repr

/-- Cell of a pipeline row at a field (absent reads as null). -/
def pcellVal (r : PRow) (f : Field) : PValue :=
  match r.find? (fun p => p.1 == f) with
  | some p => p.2
  | none => PValue.null

/-- Python `astype(str)` on a cell: nulls print as "nan". -/
def pyStrOf (v : PValue) : String :=
  match v with
  | PValue.null => "nan"
  | PValue.str s => s
  | PValue.date dt => toString dt.year ++ "-" ++ toString dt.month ++ "-" ++ toString dt.day

/-- The opt-out row test of campaign.py lines 199-203:
`astype(str).str.lower().str.strip().isin(["yes", "y", "true"])`. -/
def isOptOutStr (v : PValue) : Bool :=
  ["yes", "y", "true"].contains (trimChars (pyLower (pyStrOf v)).toList).asString

/-- The `safe_parse` cell transform of `_parse_date_column` (campaign.py
lines 264-275): nulls stay null, timestamps stay, strings go through the
external date parser and fall back to null. The parser itself
(`pd.to_datetime` / `dateutil`) is a third-party collaborator and is a
parameter. -/
def safeParse (parse : String → Option Date) : PValue → PValue
  | PValue.null => PValue.null
  | PValue.date dt => PValue.date dt
  | PValue.str sv =>
    match parse sv with
    | some dt => PValue.date dt
    | none => PValue.null

/-- `is_birthday_target` (campaign.py lines 337-345): month and day of the
parsed birthday equal those of the target date; null or unparsed values
never match. -/
def isBirthdayTarget (v : PValue) (target : Date) : Bool :=
  match v with
  | PValue.date b => b.month == target.month && b.day == target.day
  | _ => false

/-- `_filter_by_birthday` on the row list (campaign.py lines 324-347):
keep rows whose birthday matches `now + offset` by month and day. -/
def filter_by_birthday (birthdayCol : Field) (now : Date) (offset : Int)
    (rows : List PRow) : List PRow :=
  rows.filter (fun r => isBirthdayTarget (pcellVal r birthdayCol) (addDays now offset))

/-- The birthday stage as invoked by `filter_customers_for_campaign`
(campaign.py lines 232-239): only birthday campaigns filter, with
`filter_last_sms_days` reused as the day offset, defaulting to 0. -/
def birthdayStageRows (c : Campaign) (birthdayCol : Field) (now : Date)
    (rows : List PRow) : List PRow :=
  if is_birthday_campaign c then
    filter_by_birthday birthdayCol now (c.filterLastSmsDays.getD 0) rows
  else rows

/-- `should_include` of the last-visit / last-SMS recency filters
(campaign.py lines 295-298, 317-320): unknown dates are kept. A raw
string cell cannot reach these filters (the date columns are parsed
first); it is mapped to an exclusion. -/
def shouldIncludeRecency (threshold : Date) (v : PValue) : Bool :=
  match v with
  | PValue.null => true
  | PValue.date dt => dateLe dt threshold
  | PValue.str _ => false

/-- `is_anniversary_today` (campaign.py lines 360-368). -/
def isAnniversaryToday (v : PValue) (today : Date) : Bool :=
  match v with
  | PValue.date j => j.month == today.month && j.day == today.day
  | _ => false

/-- Customer column configuration of `CampaignProcessor.__init__`
(campaign.py lines 139-144). -/
structure CustomerCols where
  lastVisitCol : Field
  lastSmsSentCol : Field
  birthdayCol : Field
  customerSinceCol : Field
  firstNameCol : Field
  optOutCol : Field
deriving DecidableEq, Repr

/-- Identifier of a data frame in the run-time store. -/
abbrev FrameId := Nat

/-- The store of live data frames; frame identity models Python object
identity so that aliasing and in-place mutation are observable. -/
abbrev Store := List PFrame

/-- Read a frame (an invalid identifier reads as an empty frame). -/
def frameAt (σ : Store) (i : FrameId) : PFrame :=
  (σ[i]?).getD { cols := [], rows := [] }

/-- Allocate a fresh frame object, as `.copy()` or any pandas operation
returning a new frame. -/
def alloc (σ : Store) (d : PFrame) : Store × FrameId :=
  (σ ++ [d], σ.length)

/-- Overwrite a frame in place, as `df[col] = ...` column assignment. -/
def writeF (σ : Store) (i : FrameId) (d : PFrame) : Store :=
  σ.set i d

/-- `_parse_date_column` (campaign.py lines 249-278): return the same
object when the column is absent; otherwise copy the frame and assign the
parsed column in place on the copy. -/
def parse_date_column (parse : String → Option Date) (σ : Store) (i : FrameId)
    (col : Field) : Store × FrameId :=
  if col ∈ (frameAt σ i).cols then
    (writeF (alloc σ (frameAt σ i)).1 (alloc σ (frameAt σ i)).2
      (PFrame.mk (frameAt σ i).cols
        ((frameAt σ i).rows.map (fun r =>
          r.map (fun p => if p.1 == col then (p.1, safeParse parse p.2) else p)))),
      (alloc σ (frameAt σ i)).2)
  else (σ, i)

/-- A boolean-mask row filter producing a new frame (`df[mask]` or the
`.copy()` returns of the filter helpers). -/
def filterStep (σ : Store) (i : FrameId) (keep : PRow → Bool) : Store × FrameId :=
  alloc σ (PFrame.mk (frameAt σ i).cols ((frameAt σ i).rows.filter keep))

/-- Opt-out exclusion stage (campaign.py lines 199-204). -/
def stepOptOut (cc : CustomerCols) (s : Store × FrameId) : Store × FrameId :=
  if cc.optOutCol ∈ (frameAt s.1 s.2).cols then
    filterStep s.1 s.2 (fun r => !(isOptOutStr (pcellVal r cc.optOutCol)))
  else s

/-- One date-normalization stage (campaign.py lines 207-217). -/
def stepParse (parse : String → Option Date) (col : Field)
    (s : Store × FrameId) : Store × FrameId :=
  parse_date_column parse s.1 s.2 col

/-- Last-visit recency stage (campaign.py lines 220-223, 280-300). -/
def stepVisit (cc : CustomerCols) (c : Campaign) (now : Date)
    (s : Store × FrameId) : Store × FrameId :=
  match c.filterLastVisitDays with
  | some n =>
    if cc.lastVisitCol ∈ (frameAt s.1 s.2).cols then
      filterStep s.1 s.2
        (fun r => shouldIncludeRecency (addDays now (-n)) (pcellVal r cc.lastVisitCol))
    else s
  | none => s

/-- Last-SMS recency stage with the birthday / anniversary / announce
exemption (campaign.py lines 226-230, 302-322). -/
def stepSms (cc : CustomerCols) (c : Campaign) (now : Date)
    (s : Store × FrameId) : Store × FrameId :=
  match c.filterLastSmsDays with
  | some n =>
    if cc.lastSmsSentCol ∈ (frameAt s.1 s.2).cols then
      if !(is_birthday_campaign c) && !(is_anniversary_campaign c) && !(is_announce_campaign c) then
        filterStep s.1 s.2
          (fun r => shouldIncludeRecency (addDays now (-n)) (pcellVal r cc.lastSmsSentCol))
      else s
    else s
  | none => s

/-- Birthday stage (campaign.py lines 232-239). -/
def stepBirthday (cc : CustomerCols) (c : Campaign) (now : Date)
    (s : Store × FrameId) : Store × FrameId :=
  if is_birthday_campaign c then
    if cc.birthdayCol ∈ (frameAt s.1 s.2).cols then
      filterStep s.1 s.2
        (fun r => isBirthdayTarget (pcellVal r cc.birthdayCol)
          (addDays now (c.filterLastSmsDays.getD 0)))
    else s
  else s

/-- Anniversary stage (campaign.py lines 241-245, 349-370). -/
def stepAnniversary (cc : CustomerCols) (c : Campaign) (now : Date)
    (s : Store × FrameId) : Store × FrameId :=
  if is_anniversary_campaign c then
    if cc.customerSinceCol ∈ (frameAt s.1 s.2).cols then
      filterStep s.1 s.2
        (fun r => isAnniversaryToday (pcellVal r cc.customerSinceCol) now)
    else s
  else s

/-- `CampaignProcessor.filter_customers_for_campaign` (campaign.py lines
181-247) over the frame store: copy the input, then run the stages in
source order. Returns the store and the identifier of the result frame. -/
def filter_customers_for_campaign (parse : String → Option Date)
    (cc : CustomerCols) (c : Campaign) (now : Date)
    (σ : Store) (input : FrameId) : Store × FrameId :=
  match σ[input]? with
  | none => (σ, input)
  | some df =>
    stepAnniversary cc c now
      (stepBirthday cc c now
        (stepSms cc c now
          (stepVisit cc c now
            (stepParse parse cc.customerSinceCol
              (stepParse parse cc.birthdayCol
                (stepParse parse cc.lastSmsSentCol
                  (stepParse parse cc.lastVisitCol
                    (stepOptOut cc (alloc σ df)))))))))

theorem find?_congr {α : Type} {p q : α → Bool} (l : List α)
    (h : ∀ x ∈ l, p x = q x) : l.find? p = l.find? q := by
  induction l with
  | nil => rfl
  | cons x l ih =>
    have hx := h x (List.mem_cons_self x l)
    cases hp : p x with
    | true =>
      rw [List.find?_cons_of_pos l hp, List.find?_cons_of_pos l (hx ▸ hp)]
    | false =>
      rw [List.find?_cons_of_neg l (by simp [hp]),
        List.find?_cons_of_neg l (by simp [← hx, hp])]
      exact ih (fun x hx => h x (List.mem_cons_of_mem _ hx))

theorem pairFind_map_rowFn {κ ν : Type} [BEq κ] [LawfulBEq κ] (g : κ → ν → ν)
    (l : List (κ × ν)) (k : κ) :
    ((l.map (fun p => (p.1, g p.1 p.2))).find? (fun p => p.1 == k)).map (fun p => p.2)
      = ((l.find? (fun p => p.1 == k)).map (fun p => p.2)).map (g k) := by
  induction l with
  | nil => rfl
  | cons p l ih =>
    simp only [List.map_cons, List.find?_cons]
    cases hb : (p.1 == k) with
    | true =>
      have hk : p.1 = k := eq_of_beq hb
      simp [hk]
    | false => simpa using ih

theorem pairFind_filter_true {κ ν : Type} [BEq κ] (l : List (κ × ν))
    (q : κ × ν → Bool) (k : κ)
    (h : ∀ p ∈ l, (p.1 == k) = true → q p = true) :
    (l.filter q).find? (fun p => p.1 == k) = l.find? (fun p => p.1 == k) := by
  induction l with
  | nil => rfl
  | cons p l ih =>
    have ihl := ih (fun x hx => h x (List.mem_cons_of_mem _ hx))
    cases hq : q p with
    | true =>
      rw [List.filter_cons_of_pos hq]
      simp only [List.find?_cons]
      cases hb : (p.1 == k) with
      | true => rfl
      | false => simpa using ihl
    | false =>
      have hb : (p.1 == k) = false := by
        cases hbk : (p.1 == k) with
        | true => rw [h p (List.mem_cons_self p l) hbk] at hq; cases hq
        | false => rfl
      rw [List.filter_cons_of_neg (by simp [hq])]
      simp only [List.find?_cons, hb]
      exact ihl

theorem lookupKey_map_rowFn (g : Cell → Row → Row) (l : IRoster) (k : Cell) :
    lookupKey (l.map (fun p => (p.1, g p.1 p.2))) k = (lookupKey l k).map (g k) :=
  pairFind_map_rowFn g l k

theorem lookupKey_append (A B : IRoster) (k : Cell) :
    lookupKey (A ++ B) k = (lookupKey A k).or (lookupKey B k) := by
  unfold lookupKey
  rw [List.find?_append]
  cases A.find? (fun p => p.1 == k) <;> simp [Option.or]

theorem lookupKey_combineFirstRows (newRs oldRs : IRoster) (k : Cell) :
    lookupKey (combineFirstRows newRs oldRs) k =
      match lookupKey newRs k with
      | some nr => some (combineWithOld oldRs k nr)
      | none => lookupKey oldRs k := by
  unfold combineFirstRows
  rw [lookupKey_append, lookupKey_map_rowFn]
  cases h : lookupKey newRs k with
  | some nr => simp [Option.or]
  | none =>
    have hfilter : List.find? (fun p => p.1 == k) (oldRs.filter (fun p => !(hasKey newRs p.1)))
        = List.find? (fun p => p.1 == k) oldRs := by
      apply pairFind_filter_true
      intro p hp hpk
      have hpk2 : p.1 = k := eq_of_beq hpk
      simp [hasKey, hpk2, h]
    simp [Option.or, lookupKey, hfilter]

theorem lookupKey_enforceOptOut (cfg : MergerCfg) (oldRs merged : IRoster) (k : Cell) :
    lookupKey (enforceOptOut cfg oldRs merged) k
      = (lookupKey merged k).map (enforceRow cfg oldRs k) :=
  lookupKey_map_rowFn _ _ _

theorem lookupKey_mergeRosters (cfg : MergerCfg) (oldRs newRs : IRoster) (k : Cell) :
    lookupKey (mergeRosters cfg oldRs newRs) k =
      (match lookupKey newRs k with
       | some nr => some (combineWithOld oldRs k nr)
       | none => lookupKey oldRs k).map (enforceRow cfg oldRs k) := by
  unfold mergeRosters
  rw [lookupKey_enforceOptOut, lookupKey_combineFirstRows]

theorem getField_setField_self (r : Row) (f : Field) (v : Cell) :
    getField (setField r f v) f = some v := by
  induction r with
  | nil => simp [setField, getField]
  | cons p r ih =>
    by_cases h : (p.1 == f) = true
    · simp only [setField, if_pos h]
      simp [getField]
    · have hb : (p.1 == f) = false := by simpa using h
      simp only [setField, if_neg h]
      simpa [getField, List.find?_cons, hb] using ih

theorem getField_setField_ne (r : Row) (f g : Field) (v : Cell) (h : g ≠ f) :
    getField (setField r f v) g = getField r g := by
  have hfg : (f == g) = false := by simp [Ne.symm h]
  induction r with
  | nil => simp [setField, getField, hfg]
  | cons p r ih =>
    by_cases hpf : (p.1 == f) = true
    · have hp : p.1 = f := eq_of_beq hpf
      simp only [setField, if_pos hpf]
      simp [getField, List.find?_cons, hfg, hp]
    · simp only [setField, if_neg hpf]
      cases hpg : (p.1 == g) with
      | true => simp [getField, List.find?_cons, hpg]
      | false => simpa [getField, List.find?_cons, hpg] using ih

theorem cellVal_setField_self (r : Row) (f : Field) (v : Cell) :
    cellVal (setField r f v) f = v := by
  simp [cellVal, getField_setField_self]

theorem cellVal_setField_ne (r : Row) (f g : Field) (v : Cell) (h : g ≠ f) :
    cellVal (setField r f v) g = cellVal r g := by
  simp [cellVal, getField_setField_ne r f g v h]

theorem cellVal_combineRow (n o : Row) (f : Field) :
    cellVal (combineRow n o) f = combineCell (cellVal n f) (cellVal o f) := by
  have hpred : ∀ p ∈ n,
      ((fun q : Field × Cell => q.1 == f) ∘
        (fun p : Field × Cell => match p.2 with
          | some v => (p.1, some v)
          | none => (p.1, cellVal o p.1))) p = (p.1 == f) := by
    intro p _
    rcases p with ⟨pf, pv⟩
    cases pv <;> rfl
  show ((List.find? (fun p => p.1 == f) (combineRow n o)).map (fun p => p.2)).join
      = combineCell (cellVal n f) (cellVal o f)
  simp only [combineRow]
  rw [List.find?_append, List.find?_map, find?_congr n hpred]
  cases hn : n.find? (fun p => p.1 == f) with
  | some p =>
    have hbeq := List.find?_some hn
    have hpf : p.1 = f := eq_of_beq (by simpa using hbeq)
    rcases p with ⟨pf, pv⟩
    simp only at hpf
    cases pv with
    | some v => simp [Option.or_some, combineCell, cellVal, getField, hn]
    | none => simp [Option.or_some, combineCell, cellVal, getField, hn, hpf]
  | none =>
    have hq : (o.filter (fun p => (getField n p.1).isNone)).find? (fun p => p.1 == f)
        = o.find? (fun p => p.1 == f) := by
      apply pairFind_filter_true
      intro p hp hpk
      have hp1 : p.1 = f := eq_of_beq hpk
      rw [hp1]
      simp [getField, hn]
    rw [Option.map_none', Option.none_or, hq]
    simp [combineCell, cellVal, getField, hn]

theorem enforceRow_opted (cfg : MergerCfg) (oldRs : IRoster) (k : Cell) (r oldRow : Row)
    (hold : lookupKey oldRs k = some oldRow)
    (hopt : isOptOutValue (cellVal oldRow cfg.optOutCol) = true)
    (hne : cfg.optOutCol ≠ cfg.optOutDateCol) :
    cellVal (enforceRow cfg oldRs k r) cfg.optOutCol = some "Yes" ∧
    (∀ d, cellVal oldRow cfg.optOutDateCol = some d →
      cellVal (enforceRow cfg oldRs k r) cfg.optOutDateCol = some d) := by
  have he : enforceRow cfg oldRs k r =
      if isOptOutValue (cellVal oldRow cfg.optOutCol) then
        match getField oldRow cfg.optOutDateCol with
        | some d => setField (setField r cfg.optOutCol (some "Yes")) cfg.optOutDateCol d
        | none => setField r cfg.optOutCol (some "Yes")
      else r := by
    unfold enforceRow
    rw [hold]
  cases hdate : getField oldRow cfg.optOutDateCol with
  | some dcell =>
    have he2 : enforceRow cfg oldRs k r
        = setField (setField r cfg.optOutCol (some "Yes")) cfg.optOutDateCol dcell := by
      rw [he, if_pos hopt, hdate]
    rw [he2]
    constructor
    · rw [cellVal_setField_ne _ _ _ _ hne, cellVal_setField_self]
    · intro d hd
      have hdc : dcell = some d := by simpa [cellVal, hdate] using hd
      rw [hdc, cellVal_setField_self]
  | none =>
    have he2 : enforceRow cfg oldRs k r = setField r cfg.optOutCol (some "Yes") := by
      rw [he, if_pos hopt, hdate]
    rw [he2]
    constructor
    · rw [cellVal_setField_self]
    · intro d hd
      exfalso
      simp [cellVal, hdate] at hd

theorem rosterOpted_eq_true_iff (cfg : MergerCfg) (rs : IRoster) (k : Cell) :
    rosterOpted cfg rs k = true ↔
      ∃ r, lookupKey rs k = some r ∧ isOptOutValue (cellVal r cfg.optOutCol) = true := by
  unfold rosterOpted
  cases h : lookupKey rs k <;> simp

theorem enforceRow_no_old (cfg : MergerCfg) (oldRs : IRoster) (k : Cell) (r : Row)
    (h : lookupKey oldRs k = none) : enforceRow cfg oldRs k r = r := by
  unfold enforceRow
  rw [h]

theorem enforceRow_not_opted (cfg : MergerCfg) (oldRs : IRoster) (k : Cell)
    (r oldRow : Row) (hold : lookupKey oldRs k = some oldRow)
    (h : isOptOutValue (cellVal oldRow cfg.optOutCol) = false) :
    enforceRow cfg oldRs k r = r := by
  have he : enforceRow cfg oldRs k r =
      if isOptOutValue (cellVal oldRow cfg.optOutCol) then
        match getField oldRow cfg.optOutDateCol with
        | some d => setField (setField r cfg.optOutCol (some "Yes")) cfg.optOutDateCol d
        | none => setField r cfg.optOutCol (some "Yes")
      else r := by
    unfold enforceRow
    rw [hold]
  rw [he, if_neg (by simp [h])]

theorem cellVal_enforceRow_ne (cfg : MergerCfg) (oldRs : IRoster) (k : Cell)
    (r : Row) (f : Field) (h1 : f ≠ cfg.optOutCol) (h2 : f ≠ cfg.optOutDateCol) :
    cellVal (enforceRow cfg oldRs k r) f = cellVal r f := by
  cases hold : lookupKey oldRs k with
  | none => rw [enforceRow_no_old cfg oldRs k r hold]
  | some oldRow =>
    have he : enforceRow cfg oldRs k r =
        if isOptOutValue (cellVal oldRow cfg.optOutCol) then
          match getField oldRow cfg.optOutDateCol with
          | some d => setField (setField r cfg.optOutCol (some "Yes")) cfg.optOutDateCol d
          | none => setField r cfg.optOutCol (some "Yes")
        else r := by
      unfold enforceRow
      rw [hold]
    rw [he]
    by_cases hopt : isOptOutValue (cellVal oldRow cfg.optOutCol) = true
    · rw [if_pos hopt]
      cases hdate : getField oldRow cfg.optOutDateCol with
      | some d => rw [cellVal_setField_ne _ _ _ _ h2, cellVal_setField_ne _ _ _ _ h1]
      | none => rw [cellVal_setField_ne _ _ _ _ h1]
    · rw [if_neg hopt]

/-- Column membership of an optional frame result. -/
def dfHasCol (odf : Option DF) (f : Field) : Bool :=
  match odf with
  | some d => decide (f ∈ d.cols)
  | none => false

/-- Cell of row `i` at field `f` of an optional frame result. -/
def dfCellAt (odf : Option DF) (i : Nat) (f : Field) : Option Cell :=
  match odf with
  | some d => (d.rows[i]?).map (fun r => cellVal r f)
  | none => none

/-- Well-formedness of a frame: every row has exactly the frame columns,
in order, as pandas guarantees. -/
def wfDF (df : DF) : Prop :=
  ∀ r ∈ df.rows, r.map (fun p => p.1) = df.cols

theorem getField_eq_none_of_not_mem (r : Row) (f : Field)
    (h : f ∉ r.map (fun p => p.1)) : getField r f = none := by
  unfold getField
  rw [List.find?_eq_none.mpr]
  · rfl
  · intro p hp hpf
    exact h (by
      have : p.1 = f := eq_of_beq hpf
      rw [← this]
      exact List.mem_map_of_mem _ hp)

theorem cellVal_append_single_ne (r : Row) (f : Field) (v : Cell) (g : Field)
    (h : g ≠ f) : cellVal (r ++ [(f, v)]) g = cellVal r g := by
  have hfg : (f == g) = false := by simp [Ne.symm h]
  simp [cellVal, getField, List.find?_append, List.find?_cons, hfg, Option.or_none]

theorem wf_addColIfMissing (df : DF) (f : Field) (v : Cell) (hwf : wfDF df) :
    wfDF (addColIfMissing df f v) := by
  unfold addColIfMissing
  by_cases h : f ∈ df.cols
  · simpa [h] using hwf
  · rw [if_neg h]
    intro r hr
    simp only [List.mem_map] at hr
    obtain ⟨r0, hr0, rfl⟩ := hr
    simp [hwf r0 hr0]

theorem addColIfMissing_mem_self (df : DF) (f : Field) (v : Cell) :
    f ∈ (addColIfMissing df f v).cols := by
  unfold addColIfMissing
  by_cases h : f ∈ df.cols
  · simp [h]
  · simp [h]

theorem addColIfMissing_mem_of_ne (df : DF) (f : Field) (v : Cell)
    (g : Field) (h : g ≠ f) :
    (g ∈ (addColIfMissing df f v).cols) ↔ g ∈ df.cols := by
  unfold addColIfMissing
  by_cases hc : f ∈ df.cols
  · simp [hc]
  · simp [hc, h]

theorem addColIfMissing_preserves (df : DF) (f : Field) (v : Cell) (g : Field)
    (i : Nat) (hg : g ∈ df.cols) :
    g ∈ (addColIfMissing df f v).cols ∧
    ((addColIfMissing df f v).rows[i]?).map (fun r => cellVal r g)
      = (df.rows[i]?).map (fun r => cellVal r g) := by
  unfold addColIfMissing
  by_cases h : f ∈ df.cols
  · simp [h, hg]
  · have hfg : g ≠ f := fun e => h (e ▸ hg)
    rw [if_neg h]
    constructor
    · simp [hg]
    · simp only [List.getElem?_map]
      cases df.rows[i]? with
      | none => rfl
      | some r => simp [cellVal_append_single_ne r f v g hfg]

theorem addColIfMissing_rows_length (df : DF) (f : Field) (v : Cell) :
    (addColIfMissing df f v).rows.length = df.rows.length := by
  unfold addColIfMissing
  by_cases h : f ∈ df.cols
  · simp [h]
  · simp [h]

theorem addColIfMissing_init (df : DF) (f : Field) (v : Cell) (i : Nat)
    (hwf : wfDF df) (hmiss : f ∉ df.cols) (hi : i < df.rows.length) :
    ((addColIfMissing df f v).rows[i]?).map (fun r => cellVal r f) = some v := by
  unfold addColIfMissing
  rw [if_neg hmiss]
  simp only [List.getElem?_map]
  cases hrow : df.rows[i]? with
  | none =>
    exfalso
    rw [List.getElem?_eq_none_iff] at hrow
    omega
  | some r =>
    have hmem : r ∈ df.rows := List.getElem?_mem hrow
    have habs : f ∉ r.map (fun p => p.1) := by
      rw [hwf r hmem]
      exact hmiss
    have hnone := getField_eq_none_of_not_mem r f habs
    have hfind : r.find? (fun p => p.1 == f) = none := by
      cases hfr : r.find? (fun p => p.1 == f) with
      | none => rfl
      | some p => simp [getField, hfr] at hnone
    have hcv : cellVal (r ++ [(f, v)]) f = v := by
      simp only [cellVal, getField, List.find?_append, hfind, Option.none_or]
      simp [List.find?_cons]
    simp [hcv]

/-- C1. Sticky opt-out merge invariant: a key whose previous record has an
opted-out consent flag (case-insensitive "yes"/"y"/"true") comes out of the
merge with consent flag forced to "Yes", whatever the incoming snapshot
says for it, and a non-null previous opt-out date is preserved. -/
theorem merge_sticky_opt_out (cfg : MergerCfg) (oldRs newRs : IRoster)
    (k : Cell) (d : String)
    (hcols : cfg.optOutCol ≠ cfg.optOutDateCol)
    (hopt : rosterOpted cfg oldRs k = true) :
    rosterCell (mergeRosters cfg oldRs newRs) k cfg.optOutCol = some (some "Yes") ∧
    (rosterCell oldRs k cfg.optOutDateCol = some (some d) →
      rosterCell (mergeRosters cfg oldRs newRs) k cfg.optOutDateCol = some (some d)) := by
  obtain ⟨oldRow, hold, hoptv⟩ := (rosterOpted_eq_true_iff cfg oldRs k).mp hopt
  have key : ∃ R, lookupKey (mergeRosters cfg oldRs newRs) k
      = some (enforceRow cfg oldRs k R) := by
    rw [lookupKey_mergeRosters]
    cases hnew : lookupKey newRs k with
    | some nr => exact ⟨combineWithOld oldRs k nr, rfl⟩
    | none => exact ⟨oldRow, by rw [hold]; rfl⟩
  obtain ⟨R, hR⟩ := key
  have henf := enforceRow_opted cfg oldRs k R oldRow hold hoptv hcols
  constructor
  · simp only [rosterCell, hR, Option.map_some']
    rw [henf.1]
  · intro hd
    have hdval : cellVal oldRow cfg.optOutDateCol = some d := by
      simp only [rosterCell, hold, Option.map_some'] at hd
      simpa using hd
    simp only [rosterCell, hR, Option.map_some']
    rw [henf.2 d hdval]

/-- Witness for C1 at a concrete previous/incoming roster pair in which the
incoming snapshot reports the customer as opted back in. -/
theorem merge_sticky_opt_out_witness :
    defaultCfg.optOutCol ≠ defaultCfg.optOutDateCol ∧
    rosterOpted defaultCfg
      [(some "+15550001111",
        [("SMS_Opt_Out", some "YES"), ("Opt_Out_Date", some "2023-05-01")])]
      (some "+15550001111") = true ∧
    (rosterCell
        (mergeRosters defaultCfg
          [(some "+15550001111",
            [("SMS_Opt_Out", some "YES"), ("Opt_Out_Date", some "2023-05-01")])]
          [(some "+15550001111", [("SMS_Opt_Out", some "no")])])
        (some "+15550001111") defaultCfg.optOutCol = some (some "Yes") ∧
      (rosterCell
          [(some "+15550001111",
            [("SMS_Opt_Out", some "YES"), ("Opt_Out_Date", some "2023-05-01")])]
          (some "+15550001111") defaultCfg.optOutDateCol = some (some "2023-05-01") →
        rosterCell
          (mergeRosters defaultCfg
            [(some "+15550001111",
              [("SMS_Opt_Out", some "YES"), ("Opt_Out_Date", some "2023-05-01")])]
            [(some "+15550001111", [("SMS_Opt_Out", some "no")])])
          (some "+15550001111") defaultCfg.optOutDateCol = some (some "2023-05-01"))) :=
  ⟨by decide, by decide,
    merge_sticky_opt_out defaultCfg
      [(some "+15550001111",
        [("SMS_Opt_Out", some "YES"), ("Opt_Out_Date", some "2023-05-01")])]
      [(some "+15550001111", [("SMS_Opt_Out", some "no")])]
      (some "+15550001111") "2023-05-01" (by decide) (by decide)⟩

/-- C2 counterexample: the claim as stated fails twice on the code. With a
previously opted-out key, a non-null incoming consent flag "no" does not
win: the merged flag is forced to "Yes". And when the previous roster is
absent, the consent-tracking columns are not initialized: the result frame
has no consent column at all. -/
theorem merge_field_semantics_counterexample :
    (rosterCell
        (mergeRosters defaultCfg
          [(some "+15550001111", [("SMS_Opt_Out", some "yes")])]
          [(some "+15550001111", [("SMS_Opt_Out", some "no")])])
        (some "+15550001111") "SMS_Opt_Out" = some (some "Yes") ∧
      (rosterCell [(some "+15550001111", [("SMS_Opt_Out", some "no")])]
        (some "+15550001111") "SMS_Opt_Out").join = some "no") ∧
    dfHasCol ((merge_customer_lists defaultCfg none
        { cols := ["name"], rows := [[("name", some "Ann")]] }).toOption)
      "SMS_Opt_Out" = false := by
  decide

/-- C2 amended. Merge field semantics: for a key in both rosters, incoming
values win with nulls gap-filled from the previous record, except the
consent flag and opt-out date fields when the previous record is opted out
(those follow the sticky opt-out rule of C1); keys only in one roster are
carried over, with the same consent exception for previous-only keys; and
when the previous roster is absent the result is the incoming frame with
the last-SMS-sent, last-SMS-status and last-review-sent fields initialized
to an unset value when missing, while consent fields are not added. -/
theorem merge_field_semantics_amended (cfg : MergerCfg) (oldRs newRs : IRoster)
    (k : Cell) (f : Field) (newDF : DF) (i : Nat)
    (hs1 : cfg.lastSmsSentCol ≠ cfg.lastSmsStatusCol)
    (hs2 : cfg.lastSmsSentCol ≠ cfg.lastReviewSentCol)
    (hs3 : cfg.lastSmsStatusCol ≠ cfg.lastReviewSentCol)
    (ho1 : cfg.optOutCol ≠ cfg.lastSmsSentCol)
    (ho2 : cfg.optOutCol ≠ cfg.lastSmsStatusCol)
    (ho3 : cfg.optOutCol ≠ cfg.lastReviewSentCol)
    (hwf : wfDF newDF) :
    (hasKey newRs k = true → hasKey oldRs k = true →
      f ≠ cfg.optOutCol → f ≠ cfg.optOutDateCol →
      rosterCell (mergeRosters cfg oldRs newRs) k f
        = some (combineCell ((rosterCell newRs k f).join) ((rosterCell oldRs k f).join))) ∧
    (hasKey newRs k = true → hasKey oldRs k = true →
      rosterOpted cfg oldRs k = false →
      rosterCell (mergeRosters cfg oldRs newRs) k f
        = some (combineCell ((rosterCell newRs k f).join) ((rosterCell oldRs k f).join))) ∧
    (hasKey newRs k = true → hasKey oldRs k = false →
      rosterCell (mergeRosters cfg oldRs newRs) k f = rosterCell newRs k f) ∧
    (hasKey newRs k = false → hasKey oldRs k = true →
      f ≠ cfg.optOutCol → f ≠ cfg.optOutDateCol →
      rosterCell (mergeRosters cfg oldRs newRs) k f = rosterCell oldRs k f) ∧
    (hasKey newRs k = false → hasKey oldRs k = true →
      rosterOpted cfg oldRs k = false →
      rosterCell (mergeRosters cfg oldRs newRs) k f = rosterCell oldRs k f) ∧
    (dfHasCol ((merge_customer_lists cfg none newDF).toOption) cfg.lastSmsSentCol = true ∧
      dfHasCol ((merge_customer_lists cfg none newDF).toOption) cfg.lastSmsStatusCol = true ∧
      dfHasCol ((merge_customer_lists cfg none newDF).toOption) cfg.lastReviewSentCol = true) ∧
    (f ∈ newDF.cols →
      dfCellAt ((merge_customer_lists cfg none newDF).toOption) i f
        = dfCellAt (some newDF) i f) ∧
    (cfg.lastSmsSentCol ∉ newDF.cols → i < newDF.rows.length →
      dfCellAt ((merge_customer_lists cfg none newDF).toOption) i cfg.lastSmsSentCol
        = some none) ∧
    (cfg.lastSmsStatusCol ∉ newDF.cols → i < newDF.rows.length →
      dfCellAt ((merge_customer_lists cfg none newDF).toOption) i cfg.lastSmsStatusCol
        = some none) ∧
    (cfg.lastReviewSentCol ∉ newDF.cols → i < newDF.rows.length →
      dfCellAt ((merge_customer_lists cfg none newDF).toOption) i cfg.lastReviewSentCol
        = some none) ∧
    (cfg.optOutCol ∉ newDF.cols →
      dfHasCol ((merge_customer_lists cfg none newDF).toOption) cfg.optOutCol = false) := by
  have hok : (merge_customer_lists cfg none newDF).toOption
      = some (initNewBranch cfg newDF) := rfl
  have hinit : initNewBranch cfg newDF
      = addColIfMissing
          (addColIfMissing (addColIfMissing newDF cfg.lastSmsSentCol none)
            cfg.lastSmsStatusCol none)
          cfg.lastReviewSentCol none := rfl
  refine ⟨?_, ?_, ?_, ?_, ?_, ?_, ?_, ?_, ?_, ?_, ?_⟩
  · intro hn ho hf1 hf2
    obtain ⟨nr, hnr⟩ := Option.isSome_iff_exists.mp hn
    obtain ⟨orow, horow⟩ := Option.isSome_iff_exists.mp ho
    have hm : lookupKey (mergeRosters cfg oldRs newRs) k
        = some (enforceRow cfg oldRs k (combineRow nr orow)) := by
      rw [lookupKey_mergeRosters, hnr]
      simp [combineWithOld, horow]
    simp only [rosterCell, hm, Option.map_some']
    rw [cellVal_enforceRow_ne cfg oldRs k _ f hf1 hf2, cellVal_combineRow]
    simp [rosterCell, hnr, horow]
  · intro hn ho hnopt
    obtain ⟨nr, hnr⟩ := Option.isSome_iff_exists.mp hn
    obtain ⟨orow, horow⟩ := Option.isSome_iff_exists.mp ho
    have hoptv : isOptOutValue (cellVal orow cfg.optOutCol) = false := by
      simpa [rosterOpted, horow] using hnopt
    have hm : lookupKey (mergeRosters cfg oldRs newRs) k
        = some (combineRow nr orow) := by
      rw [lookupKey_mergeRosters, hnr]
      simp [combineWithOld, horow,
        enforceRow_not_opted cfg oldRs k _ orow horow hoptv]
    simp only [rosterCell, hm, Option.map_some']
    rw [cellVal_combineRow]
    simp [rosterCell, hnr, horow]
  · intro hn ho
    obtain ⟨nr, hnr⟩ := Option.isSome_iff_exists.mp hn
    have hnone : lookupKey oldRs k = none := by
      cases h : lookupKey oldRs k with
      | none => rfl
      | some _ => simp [hasKey, h] at ho
    have hm : lookupKey (mergeRosters cfg oldRs newRs) k = some nr := by
      rw [lookupKey_mergeRosters, hnr]
      simp [combineWithOld, hnone, enforceRow_no_old cfg oldRs k nr hnone]
    simp [rosterCell, hm, hnr]
  · intro hn ho hf1 hf2
    have hnnone : lookupKey newRs k = none := by
      cases h : lookupKey newRs k with
      | none => rfl
      | some _ => simp [hasKey, h] at hn
    obtain ⟨orow, horow⟩ := Option.isSome_iff_exists.mp ho
    have hm : lookupKey (mergeRosters cfg oldRs newRs) k
        = some (enforceRow cfg oldRs k orow) := by
      rw [lookupKey_mergeRosters, hnnone]
      simp [horow]
    simp only [rosterCell, hm, Option.map_some', horow]
    rw [cellVal_enforceRow_ne cfg oldRs k orow f hf1 hf2]
  · intro hn ho hnopt
    have hnnone : lookupKey newRs k = none := by
      cases h : lookupKey newRs k with
      | none => rfl
      | some _ => simp [hasKey, h] at hn
    obtain ⟨orow, horow⟩ := Option.isSome_iff_exists.mp ho
    have hoptv : isOptOutValue (cellVal orow cfg.optOutCol) = false := by
      simpa [rosterOpted, horow] using hnopt
    have hm : lookupKey (mergeRosters cfg oldRs newRs) k
        = some (enforceRow cfg oldRs k orow) := by
      rw [lookupKey_mergeRosters, hnnone]
      simp [horow]
    simp only [rosterCell, hm, Option.map_some', horow]
    rw [enforceRow_not_opted cfg oldRs k orow orow horow hoptv]
  · rw [hok, hinit]
    have m1 := addColIfMissing_mem_self newDF cfg.lastSmsSentCol none
    have m1b := (addColIfMissing_preserves _ cfg.lastSmsStatusCol none _ i m1).1
    have m1c := (addColIfMissing_preserves _ cfg.lastReviewSentCol none _ i m1b).1
    have m2 := addColIfMissing_mem_self
      (addColIfMissing newDF cfg.lastSmsSentCol none) cfg.lastSmsStatusCol none
    have m2b := (addColIfMissing_preserves _ cfg.lastReviewSentCol none _ i m2).1
    have m3 := addColIfMissing_mem_self
      (addColIfMissing (addColIfMissing newDF cfg.lastSmsSentCol none)
        cfg.lastSmsStatusCol none) cfg.lastReviewSentCol none
    exact ⟨by simp [dfHasCol, m1c], by simp [dfHasCol, m2b], by simp [dfHasCol, m3]⟩
  · intro hf
    rw [hok, hinit]
    have p1 := addColIfMissing_preserves newDF cfg.lastSmsSentCol none f i hf
    have p2 := addColIfMissing_preserves _ cfg.lastSmsStatusCol none f i p1.1
    have p3 := addColIfMissing_preserves _ cfg.lastReviewSentCol none f i p2.1
    simp [dfCellAt, p3.2, p2.2, p1.2]
  · intro hf hi
    rw [hok, hinit]
    have init1 := addColIfMissing_init newDF cfg.lastSmsSentCol none i hwf hf hi
    have m1 := addColIfMissing_mem_self newDF cfg.lastSmsSentCol none
    have p2 := addColIfMissing_preserves _ cfg.lastSmsStatusCol none _ i m1
    have p3 := addColIfMissing_preserves _ cfg.lastReviewSentCol none _ i p2.1
    simp [dfCellAt, p3.2, p2.2, init1]
  · intro hf hi
    rw [hok, hinit]
    have hf1 : cfg.lastSmsStatusCol ∉ (addColIfMissing newDF cfg.lastSmsSentCol none).cols := by
      rw [addColIfMissing_mem_of_ne _ _ _ _ (Ne.symm hs1)]
      exact hf
    have hwf1 := wf_addColIfMissing newDF cfg.lastSmsSentCol none hwf
    have hi1 : i < (addColIfMissing newDF cfg.lastSmsSentCol none).rows.length := by
      rw [addColIfMissing_rows_length]
      exact hi
    have init2 := addColIfMissing_init _ cfg.lastSmsStatusCol none i hwf1 hf1 hi1
    have m2 := addColIfMissing_mem_self
      (addColIfMissing newDF cfg.lastSmsSentCol none) cfg.lastSmsStatusCol none
    have p3 := addColIfMissing_preserves _ cfg.lastReviewSentCol none _ i m2
    simp [dfCellAt, p3.2, init2]
  · intro hf hi
    rw [hok, hinit]
    have hf1 : cfg.lastReviewSentCol ∉ (addColIfMissing newDF cfg.lastSmsSentCol none).cols := by
      rw [addColIfMissing_mem_of_ne _ _ _ _ (Ne.symm hs2)]
      exact hf
    have hf2 : cfg.lastReviewSentCol ∉
        (addColIfMissing (addColIfMissing newDF cfg.lastSmsSentCol none)
          cfg.lastSmsStatusCol none).cols := by
      rw [addColIfMissing_mem_of_ne _ _ _ _ (Ne.symm hs3)]
      exact hf1
    have hwf2 := wf_addColIfMissing _ cfg.lastSmsStatusCol none
      (wf_addColIfMissing newDF cfg.lastSmsSentCol none hwf)
    have hi2 : i < (addColIfMissing (addColIfMissing newDF cfg.lastSmsSentCol none)
        cfg.lastSmsStatusCol none).rows.length := by
      rw [addColIfMissing_rows_length, addColIfMissing_rows_length]
      exact hi
    have init3 := addColIfMissing_init _ cfg.lastReviewSentCol none i hwf2 hf2 hi2
    simp [dfCellAt, init3]
  · intro hf
    rw [hok, hinit]
    have hf1 : cfg.optOutCol ∉ (addColIfMissing newDF cfg.lastSmsSentCol none).cols := by
      rw [addColIfMissing_mem_of_ne _ _ _ _ ho1]
      exact hf
    have hf2 : cfg.optOutCol ∉
        (addColIfMissing (addColIfMissing newDF cfg.lastSmsSentCol none)
          cfg.lastSmsStatusCol none).cols := by
      rw [addColIfMissing_mem_of_ne _ _ _ _ ho2]
      exact hf1
    have hf3 : cfg.optOutCol ∉
        (addColIfMissing (addColIfMissing (addColIfMissing newDF cfg.lastSmsSentCol none)
          cfg.lastSmsStatusCol none) cfg.lastReviewSentCol none).cols := by
      rw [addColIfMissing_mem_of_ne _ _ _ _ ho3]
      exact hf2
    simp [dfHasCol, hf3]



/-- Witness for C2 at a concrete key present in both rosters (with a null
incoming city gap-filled from history) and a concrete incoming-only frame
for the absent-previous branch. -/
theorem merge_field_semantics_amended_witness :
    (defaultCfg.lastSmsSentCol ≠ defaultCfg.lastSmsStatusCol) ∧
    (defaultCfg.lastSmsSentCol ≠ defaultCfg.lastReviewSentCol) ∧
    (defaultCfg.lastSmsStatusCol ≠ defaultCfg.lastReviewSentCol) ∧
    (defaultCfg.optOutCol ≠ defaultCfg.lastSmsSentCol) ∧
    (defaultCfg.optOutCol ≠ defaultCfg.lastSmsStatusCol) ∧
    (defaultCfg.optOutCol ≠ defaultCfg.lastReviewSentCol) ∧
    wfDF (DF.mk ["name"] [[("name", some "Ann")]]) ∧
    ((hasKey [(some "+15550001111", [("SMS_Opt_Out", some "no"), ("city", none)])] (some "+15550001111") = true → hasKey [(some "+15550001111", [("SMS_Opt_Out", some "no"), ("city", some "Springfield")])] (some "+15550001111") = true →
      "city" ≠ defaultCfg.optOutCol → "city" ≠ defaultCfg.optOutDateCol →
      rosterCell (mergeRosters defaultCfg [(some "+15550001111", [("SMS_Opt_Out", some "no"), ("city", some "Springfield")])] [(some "+15550001111", [("SMS_Opt_Out", some "no"), ("city", none)])]) (some "+15550001111") "city"
        = some (combineCell ((rosterCell [(some "+15550001111", [("SMS_Opt_Out", some "no"), ("city", none)])] (some "+15550001111") "city").join) ((rosterCell [(some "+15550001111", [("SMS_Opt_Out", some "no"), ("city", some "Springfield")])] (some "+15550001111") "city").join))) ∧
    (hasKey [(some "+15550001111", [("SMS_Opt_Out", some "no"), ("city", none)])] (some "+15550001111") = true → hasKey [(some "+15550001111", [("SMS_Opt_Out", some "no"), ("city", some "Springfield")])] (some "+15550001111") = true →
      rosterOpted defaultCfg [(some "+15550001111", [("SMS_Opt_Out", some "no"), ("city", some "Springfield")])] (some "+15550001111") = false →
      rosterCell (mergeRosters defaultCfg [(some "+15550001111", [("SMS_Opt_Out", some "no"), ("city", some "Springfield")])] [(some "+15550001111", [("SMS_Opt_Out", some "no"), ("city", none)])]) (some "+15550001111") "city"
        = some (combineCell ((rosterCell [(some "+15550001111", [("SMS_Opt_Out", some "no"), ("city", none)])] (some "+15550001111") "city").join) ((rosterCell [(some "+15550001111", [("SMS_Opt_Out", some "no"), ("city", some "Springfield")])] (some "+15550001111") "city").join))) ∧
    (hasKey [(some "+15550001111", [("SMS_Opt_Out", some "no"), ("city", none)])] (some "+15550001111") = true → hasKey [(some "+15550001111", [("SMS_Opt_Out", some "no"), ("city", some "Springfield")])] (some "+15550001111") = false →
      rosterCell (mergeRosters defaultCfg [(some "+15550001111", [("SMS_Opt_Out", some "no"), ("city", some "Springfield")])] [(some "+15550001111", [("SMS_Opt_Out", some "no"), ("city", none)])]) (some "+15550001111") "city" = rosterCell [(some "+15550001111", [("SMS_Opt_Out", some "no"), ("city", none)])] (some "+15550001111") "city") ∧
    (hasKey [(some "+15550001111", [("SMS_Opt_Out", some "no"), ("city", none)])] (some "+15550001111") = false → hasKey [(some "+15550001111", [("SMS_Opt_Out", some "no"), ("city", some "Springfield")])] (some "+15550001111") = true →
      "city" ≠ defaultCfg.optOutCol → "city" ≠ defaultCfg.optOutDateCol →
      rosterCell (mergeRosters defaultCfg [(some "+15550001111", [("SMS_Opt_Out", some "no"), ("city", some "Springfield")])] [(some "+15550001111", [("SMS_Opt_Out", some "no"), ("city", none)])]) (some "+15550001111") "city" = rosterCell [(some "+15550001111", [("SMS_Opt_Out", some "no"), ("city", some "Springfield")])] (some "+15550001111") "city") ∧
    (hasKey [(some "+15550001111", [("SMS_Opt_Out", some "no"), ("city", none)])] (some "+15550001111") = false → hasKey [(some "+15550001111", [("SMS_Opt_Out", some "no"), ("city", some "Springfield")])] (some "+15550001111") = true →
      rosterOpted defaultCfg [(some "+15550001111", [("SMS_Opt_Out", some "no"), ("city", some "Springfield")])] (some "+15550001111") = false →
      rosterCell (mergeRosters defaultCfg [(some "+15550001111", [("SMS_Opt_Out", some "no"), ("city", some "Springfield")])] [(some "+15550001111", [("SMS_Opt_Out", some "no"), ("city", none)])]) (some "+15550001111") "city" = rosterCell [(some "+15550001111", [("SMS_Opt_Out", some "no"), ("city", some "Springfield")])] (some "+15550001111") "city") ∧
    (dfHasCol ((merge_customer_lists defaultCfg none (DF.mk ["name"] [[("name", some "Ann")]])).toOption) defaultCfg.lastSmsSentCol = true ∧
      dfHasCol ((merge_customer_lists defaultCfg none (DF.mk ["name"] [[("name", some "Ann")]])).toOption) defaultCfg.lastSmsStatusCol = true ∧
      dfHasCol ((merge_customer_lists defaultCfg none (DF.mk ["name"] [[("name", some "Ann")]])).toOption) defaultCfg.lastReviewSentCol = true) ∧
    ("city" ∈ (DF.mk ["name"] [[("name", some "Ann")]]).cols →
      dfCellAt ((merge_customer_lists defaultCfg none (DF.mk ["name"] [[("name", some "Ann")]])).toOption) 0 "city"
        = dfCellAt (some (DF.mk ["name"] [[("name", some "Ann")]])) 0 "city") ∧
    (defaultCfg.lastSmsSentCol ∉ (DF.mk ["name"] [[("name", some "Ann")]]).cols → 0 < (DF.mk ["name"] [[("name", some "Ann")]]).rows.length →
      dfCellAt ((merge_customer_lists defaultCfg none (DF.mk ["name"] [[("name", some "Ann")]])).toOption) 0 defaultCfg.lastSmsSentCol
        = some none) ∧
    (defaultCfg.lastSmsStatusCol ∉ (DF.mk ["name"] [[("name", some "Ann")]]).cols → 0 < (DF.mk ["name"] [[("name", some "Ann")]]).rows.length →
      dfCellAt ((merge_customer_lists defaultCfg none (DF.mk ["name"] [[("name", some "Ann")]])).toOption) 0 defaultCfg.lastSmsStatusCol
        = some none) ∧
    (defaultCfg.lastReviewSentCol ∉ (DF.mk ["name"] [[("name", some "Ann")]]).cols → 0 < (DF.mk ["name"] [[("name", some "Ann")]]).rows.length →
      dfCellAt ((merge_customer_lists defaultCfg none (DF.mk ["name"] [[("name", some "Ann")]])).toOption) 0 defaultCfg.lastReviewSentCol
        = some none) ∧
    (defaultCfg.optOutCol ∉ (DF.mk ["name"] [[("name", some "Ann")]]).cols →
      dfHasCol ((merge_customer_lists defaultCfg none (DF.mk ["name"] [[("name", some "Ann")]])).toOption) defaultCfg.optOutCol = false)) :=
  ⟨by decide, by decide, by decide, by decide, by decide, by decide,
    (by
      intro r hr
      have hr2 : r = [("name", some "Ann")] := by simpa using hr
      rw [hr2]
      decide),
    merge_field_semantics_amended defaultCfg
      [(some "+15550001111", [("SMS_Opt_Out", some "no"), ("city", some "Springfield")])]
      [(some "+15550001111", [("SMS_Opt_Out", some "no"), ("city", none)])]
      (some "+15550001111") "city" (DF.mk ["name"] [[("name", some "Ann")]]) 0
      (by decide) (by decide) (by decide) (by decide) (by decide) (by decide)
      (by
      intro r hr
      have hr2 : r = [("name", some "Ann")] := by simpa using hr
      rw [hr2]
      decide)⟩

theorem dedupRowsAux_length (pc : Field) (rows : List Row) (seen : List Cell) :
    (dedupRowsAux pc seen rows).length
      = ((rows.map (fun r => cellVal r pc)).toFinset \ seen.toFinset).card := by
  induction rows generalizing seen with
  | nil => simp [dedupRowsAux]
  | cons r rest ih =>
    simp only [dedupRowsAux, List.map_cons, List.toFinset_cons]
    by_cases h : cellVal r pc ∈ seen
    · rw [if_pos h, ih seen, Finset.insert_sdiff_of_mem _ (List.mem_toFinset.mpr h)]
    · rw [if_neg h, List.length_cons, ih (cellVal r pc :: seen)]
      have hset : insert (cellVal r pc) (rest.map (fun r => cellVal r pc)).toFinset
            \ seen.toFinset
          = insert (cellVal r pc)
              ((rest.map (fun r => cellVal r pc)).toFinset
                \ (cellVal r pc :: seen).toFinset) := by
        ext x
        simp only [Finset.mem_sdiff, Finset.mem_insert, List.mem_toFinset,
          List.toFinset_cons, List.mem_cons]
        by_cases hx : x = cellVal r pc
        · simp [hx, h]
        · simp [hx]
      rw [hset, Finset.card_insert_of_not_mem (by simp)]
  
theorem dedupRowsAux_find? (pc : Field) (rows : List Row) (seen : List Cell)
    (k : Cell) (hk : k ∉ seen) :
    (dedupRowsAux pc seen rows).find? (fun r => cellVal r pc == k)
      = rows.find? (fun r => cellVal r pc == k) := by
  induction rows generalizing seen with
  | nil => rfl
  | cons r rest ih =>
    simp only [dedupRowsAux]
    by_cases h : cellVal r pc ∈ seen
    · rw [if_pos h]
      have hb : (cellVal r pc == k) = false := by
        cases hb2 : (cellVal r pc == k) with
        | true => exact absurd (eq_of_beq hb2 ▸ h) hk
        | false => rfl
      rw [ih seen hk]
      simp only [List.find?_cons, hb]
    · rw [if_neg h]
      simp only [List.find?_cons]
      cases hb : (cellVal r pc == k) with
      | true => rfl
      | false =>
        apply ih
        intro hmem
        cases List.mem_cons.mp hmem with
        | inl he =>
          rw [he] at hb
          simp at hb
        | inr hs => exact hk hs

/-- C3. Deduplication: a roster with N rows of which K carry distinct phone
keys deduplicates to exactly K rows with N - K reported removed, and for
each key the row kept is the first occurrence in encounter order. -/
theorem deduplicate_spec (phoneCol : Field) (df : DF) (k : Cell)
    (h : phoneCol ∈ df.cols) :
    (deduplicate phoneCol df).1.rows.length = distinctKeyCount phoneCol df ∧
    (deduplicate phoneCol df).2
      = df.rows.length - distinctKeyCount phoneCol df ∧
    findRowByKey phoneCol (deduplicate phoneCol df).1 k
      = findRowByKey phoneCol df k := by
  unfold deduplicate
  rw [if_pos h]
  refine ⟨?_, ?_, ?_⟩
  · simp only
    rw [dedupRowsAux_length]
    simp [distinctKeyCount, List.card_toFinset]
  · simp only
    rw [dedupRowsAux_length]
    simp [distinctKeyCount, List.card_toFinset]
  · unfold findRowByKey
    simp only
    exact dedupRowsAux_find? phoneCol df.rows [] k (by simp)

/-- Witness for C3 on a three-row roster with two distinct keys: two rows
kept, one removed, first occurrence retained. -/
theorem deduplicate_spec_witness :
    ("phone_number" ∈ (DF.mk ["phone_number", "city"]
        [[("phone_number", some "+15550001111"), ("city", some "Springfield")],
         [("phone_number", some "+15550002222"), ("city", some "Shelbyville")],
         [("phone_number", some "+15550001111"), ("city", some "Ogdenville")]]).cols) ∧
    ((deduplicate "phone_number" (DF.mk ["phone_number", "city"]
        [[("phone_number", some "+15550001111"), ("city", some "Springfield")],
         [("phone_number", some "+15550002222"), ("city", some "Shelbyville")],
         [("phone_number", some "+15550001111"), ("city", some "Ogdenville")]])).1.rows.length
      = distinctKeyCount "phone_number" (DF.mk ["phone_number", "city"]
        [[("phone_number", some "+15550001111"), ("city", some "Springfield")],
         [("phone_number", some "+15550002222"), ("city", some "Shelbyville")],
         [("phone_number", some "+15550001111"), ("city", some "Ogdenville")]]) ∧
    (deduplicate "phone_number" (DF.mk ["phone_number", "city"]
        [[("phone_number", some "+15550001111"), ("city", some "Springfield")],
         [("phone_number", some "+15550002222"), ("city", some "Shelbyville")],
         [("phone_number", some "+15550001111"), ("city", some "Ogdenville")]])).2
      = (DF.mk ["phone_number", "city"]
        [[("phone_number", some "+15550001111"), ("city", some "Springfield")],
         [("phone_number", some "+15550002222"), ("city", some "Shelbyville")],
         [("phone_number", some "+15550001111"), ("city", some "Ogdenville")]]).rows.length
        - distinctKeyCount "phone_number" (DF.mk ["phone_number", "city"]
        [[("phone_number", some "+15550001111"), ("city", some "Springfield")],
         [("phone_number", some "+15550002222"), ("city", some "Shelbyville")],
         [("phone_number", some "+15550001111"), ("city", some "Ogdenville")]]) ∧
    findRowByKey "phone_number" (deduplicate "phone_number" (DF.mk ["phone_number", "city"]
        [[("phone_number", some "+15550001111"), ("city", some "Springfield")],
         [("phone_number", some "+15550002222"), ("city", some "Shelbyville")],
         [("phone_number", some "+15550001111"), ("city", some "Ogdenville")]])).1
        (some "+15550001111")
      = findRowByKey "phone_number" (DF.mk ["phone_number", "city"]
        [[("phone_number", some "+15550001111"), ("city", some "Springfield")],
         [("phone_number", some "+15550002222"), ("city", some "Shelbyville")],
         [("phone_number", some "+15550001111"), ("city", some "Ogdenville")]])
        (some "+15550001111")) :=
  ⟨by decide,
    deduplicate_spec "phone_number" (DF.mk ["phone_number", "city"]
        [[("phone_number", some "+15550001111"), ("city", some "Springfield")],
         [("phone_number", some "+15550002222"), ("city", some "Shelbyville")],
         [("phone_number", some "+15550001111"), ("city", some "Ogdenville")]])
      (some "+15550001111") (by decide)⟩

theorem toLower_of_isDigit (c : Char) (h : c.isDigit = true) :
    Char.toLower c = c := by
  unfold Char.toLower
  rw [if_neg]
  simp [Char.isDigit] at h
  obtain ⟨h1, h2⟩ := h
  intro hcon
  obtain ⟨h65, _⟩ := hcon
  have : c.toNat ≤ 57 := by
    simpa [Char.toNat] using h2
  omega

theorem trim_of_no_ws (cs : List Char) (h : ∀ c ∈ cs, isWS c = false) :
    trimChars cs = cs := by
  have key : ∀ l : List Char, (∀ c ∈ l, isWS c = false) → l.dropWhile isWS = l := by
    intro l hl
    cases l with
    | nil => rfl
    | cons c cs2 => simp [List.dropWhile_cons, hl c (List.mem_cons_self c cs2)]
  unfold trimChars
  rw [key cs h, key cs.reverse (fun c hc => h c (List.mem_reverse.mp hc)),
    List.reverse_reverse]

theorem isWS_eq_false_of_isDigit (c : Char) (h : c.isDigit = true) :
    isWS c = false := by
  have hne : ∀ x : Char, x.isDigit = false → (c == x) = false := by
    intro x hx
    cases hb : (c == x) with
    | true =>
      rw [eq_of_beq hb] at h
      rw [h] at hx
      cases hx
    | false => rfl
  unfold isWS
  rw [hne ' ' (by decide), hne '\t' (by decide), hne '\n' (by decide),
    hne '\r' (by decide), hne '\x0b' (by decide), hne '\x0c' (by decide)]
  rfl

theorem keep_of_isDigit_or_plus (cs : List Char)
    (h : ∀ c ∈ cs, c.isDigit = true ∨ c = '+') :
    cs.filter (fun c => c.isAlphanum || c == '+') = cs := by
  apply List.filter_eq_self.mpr
  intro c hc
  cases h c hc with
  | inl hd => simp [Char.isAlphanum, hd]
  | inr hp => simp [hp]

theorem no_dot_take (cs : List Char) (h : ∀ c ∈ cs, c.isDigit = true ∨ c = '+') :
    ¬(cs.reverse.take 2 = ['0', '.']) := by
  intro e
  have hdot : '.' ∈ cs.reverse.take 2 := by
    rw [e]
    simp
  have hmem : '.' ∈ cs := List.mem_reverse.mp (List.mem_of_mem_take hdot)
  cases h '.' hmem with
  | inl hd => exact absurd hd (by decide)
  | inr hp => exact absurd hp (by decide)

theorem normalizeChars_plus (ds : List Char)
    (hds : ∀ c ∈ ds, c.isDigit = true) :
    normalizeChars ('+' :: ds) = some ('+' :: ds) := by
  have hall : ∀ c ∈ ('+' :: ds), c.isDigit = true ∨ c = '+' := by
    intro c hc
    cases List.mem_cons.mp hc with
    | inl h => exact Or.inr h
    | inr h => exact Or.inl (hds c h)
  have c1 : ¬(('+' :: ds).map Char.toLower = "nan".toList) := by
    intro e
    rw [List.map_cons] at e
    injection e with e1 _
    exact absurd e1 (by decide)
  have hnws : ∀ c ∈ ('+' :: ds), isWS c = false := by
    intro c hc
    cases hall c hc with
    | inl hd => exact isWS_eq_false_of_isDigit c hd
    | inr hp => rw [hp]; decide
  simp only [normalizeChars]
  rw [if_neg c1, trim_of_no_ws _ hnws, if_neg (no_dot_take _ hall),
    keep_of_isDigit_or_plus _ hall, if_neg (by simp : ¬('+' :: ds = []))]
  simp

theorem normalizeChars_digits (cs : List Char)
    (hne : cs ≠ []) (hds : ∀ c ∈ cs, c.isDigit = true) :
    normalizeChars cs =
      if cs.length = 10 then some ('+' :: '1' :: cs)
      else if cs.length = 11 ∧ cs.head? = some '1' then some ('+' :: cs)
      else some ('+' :: cs) := by
  have hall : ∀ c ∈ cs, c.isDigit = true ∨ c = '+' := fun c hc => Or.inl (hds c hc)
  have c1 : ¬(cs.map Char.toLower = "nan".toList) := by
    intro e
    cases cs with
    | nil => cases e
    | cons c t =>
      rw [List.map_cons] at e
      injection e with e1 _
      rw [toLower_of_isDigit c (hds c (List.mem_cons_self c t))] at e1
      have := hds c (List.mem_cons_self c t)
      rw [e1] at this
      exact absurd this (by decide)
  have hnws : ∀ c ∈ cs, isWS c = false :=
    fun c hc => isWS_eq_false_of_isDigit c (hds c hc)
  have c5 : ¬(cs.head? = some '+') := by
    intro e
    cases cs with
    | nil => cases e
    | cons c t =>
      have : c = '+' := by simpa using e
      have hd := hds c (List.mem_cons_self c t)
      rw [this] at hd
      exact absurd hd (by decide)
  simp only [normalizeChars]
  rw [if_neg c1, trim_of_no_ws _ hnws, if_neg (no_dot_take _ hall),
    keep_of_isDigit_or_plus _ hall, if_neg hne, if_neg c5]

/-- C4. Phone-normalization idempotence on valid 10-digit numeric strings
and 11-digit numeric strings with a leading "1": applying
`normalize_single_phone` to its own output returns the output unchanged. -/
theorem normalize_idempotent (x : String)
    (h : (x.length = 10 ∧ ∀ c ∈ x.toList, c.isDigit = true) ∨
         (x.length = 11 ∧ (∀ c ∈ x.toList, c.isDigit = true) ∧
           x.toList.head? = some '1')) :
    (normalize_single_phone x).bind normalize_single_phone
      = normalize_single_phone x := by
  have hlen : x.length = x.toList.length := rfl
  cases h with
  | inl hten =>
    obtain ⟨hl, hd⟩ := hten
    have hne : x.toList ≠ [] := by
      intro e
      rw [hlen, e] at hl
      cases hl
    have h0 := normalizeChars_digits x.toList hne hd
    rw [if_pos (by rw [← hlen]; exact hl)] at h0
    unfold normalize_single_phone
    rw [h0]
    simp only [Option.map_some', Option.some_bind]
    have : (('+' :: '1' :: x.toList).asString).toList = '+' :: '1' :: x.toList := rfl
    rw [this, normalizeChars_plus ('1' :: x.toList)
      (by
        intro c hc
        cases List.mem_cons.mp hc with
        | inl h1 => rw [h1]; decide
        | inr h2 => exact hd c h2)]
    rfl
  | inr helev =>
    obtain ⟨hl, hd, hh⟩ := helev
    have hne : x.toList ≠ [] := by
      intro e
      rw [hlen, e] at hl
      cases hl
    have h0 := normalizeChars_digits x.toList hne hd
    rw [if_neg (by rw [← hlen]; omega), if_pos ⟨by rw [← hlen]; exact hl, hh⟩] at h0
    unfold normalize_single_phone
    rw [h0]
    simp only [Option.map_some', Option.some_bind]
    have : (('+' :: x.toList).asString).toList = '+' :: x.toList := rfl
    rw [this, normalizeChars_plus x.toList hd]
    rfl

/-- Witness for C4 on a 10-digit and proof reuse is at the 10-digit input
"5551234567". -/
theorem normalize_idempotent_witness :
    (("5551234567" : String).length = 10 ∧
      ∀ c ∈ ("5551234567" : String).toList, c.isDigit = true) ∧
    (normalize_single_phone "5551234567").bind normalize_single_phone
      = normalize_single_phone "5551234567" :=
  ⟨by decide,
    normalize_idempotent "5551234567" (Or.inl (by decide))⟩

/-- C5 counterexample: with character limit 2 and an 8-character
substituted message, the Python slice `message[:limit - 3]` has a negative
bound, so the rendered message is "abcdefg..." of length 10, which exceeds
the limit instead of being capped by it. -/
theorem character_limit_counterexample :
    (2 : Int) < ((("abcdefgh" : String)).length : Int) ∧
    applyCharacterLimit (some 2) "abcdefgh" = "abcdefg..." ∧
    ¬(((applyCharacterLimit (some 2) "abcdefgh").length : Int) ≤ 2) := by
  decide

/-- C5 amended. Rendering length cap for limits of at least 3: a
substituted message longer than the limit is truncated to limit - 3
characters plus the ellipsis marker, the result then having exactly the
limit length; and the rendered message never exceeds the limit. -/
theorem character_limit_amended (l : Int) (msg : String) (h3 : 3 ≤ l) :
    ((applyCharacterLimit (some l) msg).length : Int) ≤ l ∧
    (l < (msg.length : Int) →
      applyCharacterLimit (some l) msg
        = (pySliceTo msg.toList (l - 3)).asString ++ "..." ∧
      ((pySliceTo msg.toList (l - 3)).length : Int) = l - 3 ∧
      ((applyCharacterLimit (some l) msg).length : Int) = l) := by
  have hmsg : msg.length = msg.toList.length := rfl
  by_cases hlt : l < (msg.length : Int)
  · have hc : (l != 0 && decide (l < (msg.length : Int))) = true := by
      simp only [Bool.and_eq_true, bne_iff_ne, decide_eq_true_eq]
      exact ⟨by omega, hlt⟩
    have happ : applyCharacterLimit (some l) msg
        = (pySliceTo msg.toList (l - 3)).asString ++ "..." := by
      simp only [applyCharacterLimit]
      rw [if_pos hc]
    have hslice : (pySliceTo msg.toList (l - 3)).length = (l - 3).toNat := by
      unfold pySliceTo
      rw [if_pos (by omega : (0 : Int) ≤ l - 3)]
      rw [List.length_take]
      exact Nat.min_eq_left (by omega)
    have hlenapp : ((applyCharacterLimit (some l) msg).length : Int) = l := by
      rw [happ, String.length_append]
      have h1 : ((pySliceTo msg.toList (l - 3)).asString).length
          = (pySliceTo msg.toList (l - 3)).length := rfl
      rw [h1, hslice]
      have h2 : ("..." : String).length = 3 := rfl
      rw [h2]
      omega
    exact ⟨by omega, fun _ => ⟨happ, by rw [hslice]; omega, hlenapp⟩⟩
  · have hc : ¬((l != 0 && decide (l < (msg.length : Int))) = true) := by
      simp only [Bool.and_eq_true, bne_iff_ne, decide_eq_true_eq]
      rintro ⟨-, h2⟩
      exact hlt h2
    have happ : applyCharacterLimit (some l) msg = msg := by
      simp only [applyCharacterLimit]
      rw [if_neg hc]
    rw [happ]
    exact ⟨by omega, fun hcon => absurd hcon hlt⟩

/-- Witness for C5 amended at limit 5 and the message "abcdefgh". -/
theorem character_limit_amended_witness :
    (3 : Int) ≤ 5 ∧
    (((applyCharacterLimit (some 5) "abcdefgh").length : Int) ≤ 5 ∧
      ((5 : Int) < ((("abcdefgh" : String)).length : Int) →
        applyCharacterLimit (some 5) "abcdefgh"
          = (pySliceTo ("abcdefgh" : String).toList (5 - 3)).asString ++ "..." ∧
        ((pySliceTo ("abcdefgh" : String).toList (5 - 3)).length : Int) = 5 - 3 ∧
        ((applyCharacterLimit (some 5) "abcdefgh").length : Int) = 5)) :=
  ⟨by decide, character_limit_amended 5 "abcdefgh" (by decide)⟩

/-- C6. Birthday eligibility: for a birthday campaign the birthday stage
keeps exactly the records whose parsed birthday matches, by month and day
only, the target date now + offset, where the offset is the dual-purposed
last-SMS-days field when set and 0 otherwise; an unknown (null or
unparsed) birthday never matches. -/
theorem birthday_filter_spec (c : Campaign) (birthdayCol : Field) (now : Date)
    (rows : List PRow) (r : PRow)
    (hb : is_birthday_campaign c = true) :
    (r ∈ birthdayStageRows c birthdayCol now rows ↔
      r ∈ rows ∧
        isBirthdayTarget (pcellVal r birthdayCol)
          (addDays now (c.filterLastSmsDays.getD 0)) = true) ∧
    isBirthdayTarget PValue.null
      (addDays now (c.filterLastSmsDays.getD 0)) = false := by
  constructor
  · unfold birthdayStageRows
    rw [if_pos hb]
    unfold filter_by_birthday
    exact List.mem_filter
  · rfl

/-- Witness for C6: a birthday campaign with offset 7 run on 2024-01-01
keeps the record with birthday January 8 (year ignored). -/
theorem birthday_filter_spec_witness :
    is_birthday_campaign (Campaign.mk "Happy birthday!" none "Birthday" none (some 7)) = true ∧
    (([("birthday", PValue.date (Date.mk 1990 1 8))] ∈
        birthdayStageRows (Campaign.mk "Happy birthday!" none "Birthday" none (some 7))
          "birthday" (Date.mk 2024 1 1)
          [[("birthday", PValue.date (Date.mk 1990 1 8))],
           [("birthday", PValue.date (Date.mk 1985 1 1))]] ↔
      [("birthday", PValue.date (Date.mk 1990 1 8))] ∈
          [[("birthday", PValue.date (Date.mk 1990 1 8))],
           [("birthday", PValue.date (Date.mk 1985 1 1))]] ∧
        isBirthdayTarget
          (pcellVal [("birthday", PValue.date (Date.mk 1990 1 8))] "birthday")
          (addDays (Date.mk 2024 1 1)
            ((Campaign.mk "Happy birthday!" none "Birthday" none (some 7)).filterLastSmsDays.getD 0))
          = true) ∧
      isBirthdayTarget PValue.null
        (addDays (Date.mk 2024 1 1)
          ((Campaign.mk "Happy birthday!" none "Birthday" none (some 7)).filterLastSmsDays.getD 0))
        = false) :=
  ⟨by decide,
    birthday_filter_spec (Campaign.mk "Happy birthday!" none "Birthday" none (some 7))
      "birthday" (Date.mk 2024 1 1)
      [[("birthday", PValue.date (Date.mk 1990 1 8))],
       [("birthday", PValue.date (Date.mk 1985 1 1))]]
      [("birthday", PValue.date (Date.mk 1990 1 8))]
      (by decide)⟩

/-- C7 counterexample: a tab character is outside the 7-bit alphabet, yet
the message consisting of a single tab is classified GSM-7, because the
code only adds characters to the trigger set when they are known Unicode
triggers or above code point 127. -/
theorem encoding_classification_counterexample :
    (detectEncoding ['\t']).1 = Encoding.gsm7 ∧
    inSevenBitAlphabet '\t' = false := by
  decide

/-- C7 amended. Encoding classification: a message is classified Unicode
exactly when it contains an emoji-range character, or a character outside
the 7-bit alphabet that is additionally a known Unicode trigger or above
code point 127; emoji presence short-circuits with the emoji runs
collected as the Unicode-characters set. -/
theorem encoding_classification_amended (m : List Char) :
    ((detectEncoding m).1 = Encoding.ucs2 ↔
      (m.any isEmojiChar || m.any isUnicodeTrigger) = true) ∧
    (m.any isEmojiChar = true →
      detectEncoding m = (Encoding.ucs2, emojiRuns m)) := by
  by_cases he : m.any isEmojiChar = true
  · constructor
    · simp only [detectEncoding]
      rw [if_pos he]
      simp [he]
    · intro _
      simp only [detectEncoding]
      rw [if_pos he]
  · have he2 : m.any isEmojiChar = false := by simpa using he
    constructor
    · simp only [detectEncoding]
      rw [if_neg he]
      by_cases ht : ((m.filter isUnicodeTrigger).dedup).isEmpty = true
      · rw [if_pos ht]
        have htr : m.any isUnicodeTrigger = false := by
          rw [List.isEmpty_iff, List.dedup_eq_nil] at ht
          rw [List.any_eq_false]
          intro x hx hpx
          have : x ∈ m.filter isUnicodeTrigger := List.mem_filter.mpr ⟨hx, hpx⟩
          rw [ht] at this
          cases this
        simp [he2, htr]
      · rw [if_neg ht]
        have htr : m.any isUnicodeTrigger = true := by
          rw [List.isEmpty_iff] at ht
          have hne : (m.filter isUnicodeTrigger) ≠ [] := by
            intro e
            rw [e] at ht
            simp at ht
          obtain ⟨x, hx⟩ := List.exists_mem_of_ne_nil _ hne
          have hx2 := List.mem_filter.mp hx
          rw [List.any_eq_true]
          exact ⟨x, hx2.1, hx2.2⟩
        simp [htr]
    · intro hcon
      exact absurd hcon he

/-- Witness for C7 amended at a single-emoji message. -/
theorem encoding_classification_amended_witness :
    ((detectEncoding [Char.ofNat 0x1F600]).1 = Encoding.ucs2 ↔
      ([Char.ofNat 0x1F600].any isEmojiChar ||
        [Char.ofNat 0x1F600].any isUnicodeTrigger) = true) ∧
    ([Char.ofNat 0x1F600].any isEmojiChar = true →
      detectEncoding [Char.ofNat 0x1F600]
        = (Encoding.ucs2, emojiRuns [Char.ofNat 0x1F600])) :=
  encoding_classification_amended [Char.ofNat 0x1F600]

/-- C8 counterexample: the empty message has effective length 0, which is
at most 160, yet its segment count is 0, not 1 as the claim states. -/
theorem segment_count_counterexample :
    effectiveLength [] (detectEncoding []).1 = 0 ∧
    effectiveLength [] (detectEncoding []).1 ≤ 160 ∧
    calculateSegments (effectiveLength [] (detectEncoding []).1)
      (detectEncoding []).1 = 0 := by
  decide

/-- C8 amended. Segment count: effective length is raw length plus one per
extended character for 7-bit and raw length for Unicode; the segment count
is 0 at effective length 0, and otherwise 1 up to the single-segment limit
(160 / 70) and the ceiling of effective length over the multi-segment
chunk (153 / 67) beyond it. -/
theorem segment_count_amended (m : List Char) (e : Encoding) (eff : Nat)
    (he : e = (detectEncoding m).1) (heff : eff = effectiveLength m e) :
    (e = Encoding.gsm7 →
      eff = m.length + m.countP (fun c => GSM_7_EXTENDED.contains c)) ∧
    (e = Encoding.ucs2 → eff = m.length) ∧
    (eff = 0 → calculateSegments eff e = 0) ∧
    (1 ≤ eff → e = Encoding.gsm7 →
      calculateSegments eff e = if eff ≤ 160 then 1 else (eff + 152) / 153) ∧
    (1 ≤ eff → e = Encoding.ucs2 →
      calculateSegments eff e = if eff ≤ 70 then 1 else (eff + 66) / 67) := by
  refine ⟨?_, ?_, ?_, ?_, ?_⟩
  · intro hg
    subst hg
    rw [heff]
    rfl
  · intro hu
    subst hu
    rw [heff]
    rfl
  · intro h0
    subst h0
    rfl
  · intro h1 hg
    subst hg
    simp only [calculateSegments]
    rw [if_neg (by simp; omega : ¬((eff == 0) = true))]
    by_cases hle : eff ≤ 160
    · rw [if_pos hle, if_pos hle]
    · rw [if_neg hle, if_neg hle,
        show eff + 152 = (eff - 1) + 153 by omega,
        Nat.add_div_right _ (by omega)]
  · intro h1 hu
    subst hu
    simp only [calculateSegments]
    rw [if_neg (by simp; omega : ¬((eff == 0) = true))]
    by_cases hle : eff ≤ 70
    · rw [if_pos hle, if_pos hle]
    · rw [if_neg hle, if_neg hle,
        show eff + 66 = (eff - 1) + 67 by omega,
        Nat.add_div_right _ (by omega)]

set_option maxRecDepth 8192 in
/-- Witness for C8 amended at a 161-character ASCII message: GSM-7
encoding and ceiling arithmetic giving 2 segments. -/
theorem segment_count_amended_witness :
    (Encoding.gsm7 = (detectEncoding (List.replicate 161 'a')).1) ∧
    ((161 : Nat) = effectiveLength (List.replicate 161 'a') Encoding.gsm7) ∧
    ((Encoding.gsm7 = Encoding.gsm7 →
        161 = (List.replicate 161 'a').length +
          (List.replicate 161 'a').countP (fun c => GSM_7_EXTENDED.contains c)) ∧
      (Encoding.gsm7 = Encoding.ucs2 → 161 = (List.replicate 161 'a').length) ∧
      (161 = 0 → calculateSegments 161 Encoding.gsm7 = 0) ∧
      (1 ≤ 161 → Encoding.gsm7 = Encoding.gsm7 →
        calculateSegments 161 Encoding.gsm7
          = if 161 ≤ 160 then 1 else (161 + 152) / 153) ∧
      (1 ≤ 161 → Encoding.gsm7 = Encoding.ucs2 →
        calculateSegments 161 Encoding.gsm7
          = if 161 ≤ 70 then 1 else (161 + 66) / 67)) :=
  ⟨by decide, by decide,
    segment_count_amended (List.replicate 161 'a') Encoding.gsm7 161
      (by decide) (by decide)⟩

/-- C9 counterexample: when the previous roster is absent, a supplied
incoming snapshot with no phone key column does not raise; the merge
succeeds and returns the initialized incoming frame. -/
theorem missing_phone_column_counterexample :
    (defaultCfg.phoneCol ∉ (DF.mk ["name"] [[("name", some "Ann")]]).cols) ∧
    (merge_customer_lists defaultCfg none
      (DF.mk ["name"] [[("name", some "Ann")]])).isOk = true := by
  decide

/-- C9 amended. Missing join-key column: when a non-empty previous roster
is supplied, the merge fails with the hard configuration error exactly
when either frame lacks the phone key column; when the previous roster is
absent no column check happens and the merge always succeeds. -/
theorem missing_phone_column_amended (cfg : MergerCfg) (o new : DF)
    (hne : o.rows ≠ []) :
    ((merge_customer_lists cfg (some o) new).isOk = true ↔
      (cfg.phoneCol ∈ o.cols ∧ cfg.phoneCol ∈ new.cols)) ∧
    (merge_customer_lists cfg none new).isOk = true := by
  constructor
  · simp only [merge_customer_lists]
    rw [if_neg (by simpa [List.isEmpty_iff] using hne)]
    by_cases h1 : cfg.phoneCol ∈ o.cols
    · rw [if_neg (not_not_intro h1)]
      by_cases h2 : cfg.phoneCol ∈ new.cols
      · rw [if_neg (not_not_intro h2)]
        simp [h1, h2, Except.isOk, Except.toBool]
      · rw [if_pos h2]
        simp [h2, Except.isOk, Except.toBool]
    · rw [if_pos h1]
      simp [h1, Except.isOk, Except.toBool]
  · rfl

/-- Witness for C9 amended: a one-row previous roster and incoming frame
both carrying the phone column make the merge succeed, matching the
membership condition. -/
theorem missing_phone_column_amended_witness :
    ((DF.mk ["phone_number"] [[("phone_number", some "+15550001111")]]).rows ≠ []) ∧
    (((merge_customer_lists defaultCfg
        (some (DF.mk ["phone_number"] [[("phone_number", some "+15550001111")]]))
        (DF.mk ["phone_number"] [[("phone_number", some "+15550002222")]])).isOk = true ↔
      (defaultCfg.phoneCol ∈
          (DF.mk ["phone_number"] [[("phone_number", some "+15550001111")]]).cols ∧
        defaultCfg.phoneCol ∈
          (DF.mk ["phone_number"] [[("phone_number", some "+15550002222")]]).cols)) ∧
      (merge_customer_lists defaultCfg none
        (DF.mk ["phone_number"] [[("phone_number", some "+15550002222")]])).isOk = true) :=
  ⟨by decide,
    missing_phone_column_amended defaultCfg
      (DF.mk ["phone_number"] [[("phone_number", some "+15550001111")]])
      (DF.mk ["phone_number"] [[("phone_number", some "+15550002222")]])
      (by decide)⟩

/-- Store growth relation: a pipeline step only appends fresh frames (or
writes into them) and returns either its incoming frame id or a fresh
one. -/
def Grows (s t : Store × FrameId) : Prop :=
  (∃ e, t.1 = s.1 ++ e) ∧ (t.2 = s.2 ∨ s.1.length ≤ t.2)

theorem Grows.trans {s t u : Store × FrameId} (h1 : Grows s t) (h2 : Grows t u) :
    Grows s u := by
  obtain ⟨⟨e1, he1⟩, hf1⟩ := h1
  obtain ⟨⟨e2, he2⟩, hf2⟩ := h2
  refine ⟨⟨e1 ++ e2, by rw [he2, he1, List.append_assoc]⟩, ?_⟩
  cases hf2 with
  | inl h => rw [h]; exact hf1
  | inr h =>
    right
    have hlen : s.1.length ≤ t.1.length := by rw [he1]; simp
    omega

theorem grows_refl (s : Store × FrameId) : Grows s s :=
  ⟨⟨[], by simp⟩, Or.inl rfl⟩

theorem grows_filterStep (σ : Store) (i : FrameId) (keep : PRow → Bool) :
    Grows (σ, i) (filterStep σ i keep) :=
  ⟨⟨[PFrame.mk (frameAt σ i).cols ((frameAt σ i).rows.filter keep)], rfl⟩,
    Or.inr (Nat.le_refl _)⟩

theorem set_append_length (σ : Store) (d d2 : PFrame) :
    (σ ++ [d]).set σ.length d2 = σ ++ [d2] := by
  induction σ with
  | nil => rfl
  | cons a t ih => simp [List.set, ih]

theorem grows_parse_date_column (parse : String → Option Date) (σ : Store)
    (i : FrameId) (col : Field) :
    Grows (σ, i) (parse_date_column parse σ i col) := by
  unfold parse_date_column
  by_cases h : col ∈ (frameAt σ i).cols
  · rw [if_pos h]
    refine ⟨⟨_, set_append_length σ (frameAt σ i) _⟩, Or.inr (Nat.le_refl _)⟩
  · rw [if_neg h]
    exact grows_refl (σ, i)

theorem grows_stepOptOut (cc : CustomerCols) (s : Store × FrameId) :
    Grows s (stepOptOut cc s) := by
  unfold stepOptOut
  split
  · exact grows_filterStep _ _ _
  · exact grows_refl s

theorem grows_stepParse (parse : String → Option Date) (col : Field)
    (s : Store × FrameId) : Grows s (stepParse parse col s) :=
  grows_parse_date_column parse s.1 s.2 col

theorem grows_stepVisit (cc : CustomerCols) (c : Campaign) (now : Date)
    (s : Store × FrameId) : Grows s (stepVisit cc c now s) := by
  unfold stepVisit
  split
  · split
    · exact grows_filterStep _ _ _
    · exact grows_refl s
  · exact grows_refl s

theorem grows_stepSms (cc : CustomerCols) (c : Campaign) (now : Date)
    (s : Store × FrameId) : Grows s (stepSms cc c now s) := by
  unfold stepSms
  split
  · split
    · split
      · exact grows_filterStep _ _ _
      · exact grows_refl s
    · exact grows_refl s
  · exact grows_refl s

theorem grows_stepBirthday (cc : CustomerCols) (c : Campaign) (now : Date)
    (s : Store × FrameId) : Grows s (stepBirthday cc c now s) := by
  unfold stepBirthday
  split
  · split
    · exact grows_filterStep _ _ _
    · exact grows_refl s
  · exact grows_refl s

theorem grows_stepAnniversary (cc : CustomerCols) (c : Campaign) (now : Date)
    (s : Store × FrameId) : Grows s (stepAnniversary cc c now s) := by
  unfold stepAnniversary
  split
  · split
    · exact grows_filterStep _ _ _
    · exact grows_refl s
  · exact grows_refl s

/-- C10. Frame property of the eligibility filter: it copies the input
frame and only allocates or mutates fresh frames, so the caller's frame
(records, field values and order) is unchanged at its identifier and the
returned frame is a different object. -/
theorem filter_preserves_input (parse : String → Option Date)
    (cc : CustomerCols) (c : Campaign) (now : Date) (σ : Store)
    (input : FrameId) (h : input < σ.length) :
    ((filter_customers_for_campaign parse cc c now σ input).1)[input]?
      = σ[input]? ∧
    (filter_customers_for_campaign parse cc c now σ input).2 ≠ input := by
  have hdf : σ[input]? = some σ[input] := List.getElem?_eq_getElem h
  have hbody : filter_customers_for_campaign parse cc c now σ input
      = stepAnniversary cc c now
          (stepBirthday cc c now
            (stepSms cc c now
              (stepVisit cc c now
                (stepParse parse cc.customerSinceCol
                  (stepParse parse cc.birthdayCol
                    (stepParse parse cc.lastSmsSentCol
                      (stepParse parse cc.lastVisitCol
                        (stepOptOut cc (alloc σ σ[input]))))))))) := by
    unfold filter_customers_for_campaign
    rw [hdf]
  have G : Grows (alloc σ σ[input])
      (stepAnniversary cc c now
        (stepBirthday cc c now
          (stepSms cc c now
            (stepVisit cc c now
              (stepParse parse cc.customerSinceCol
                (stepParse parse cc.birthdayCol
                  (stepParse parse cc.lastSmsSentCol
                    (stepParse parse cc.lastVisitCol
                      (stepOptOut cc (alloc σ σ[input])))))))))) :=
    ((((((((grows_stepOptOut cc _).trans
      (grows_stepParse parse cc.lastVisitCol _)).trans
      (grows_stepParse parse cc.lastSmsSentCol _)).trans
      (grows_stepParse parse cc.birthdayCol _)).trans
      (grows_stepParse parse cc.customerSinceCol _)).trans
      (grows_stepVisit cc c now _)).trans
      (grows_stepSms cc c now _)).trans
      (grows_stepBirthday cc c now _)).trans
      (grows_stepAnniversary cc c now _)
  obtain ⟨⟨E, hE⟩, hf⟩ := G
  have halloc1 : (alloc σ σ[input]).1 = σ ++ [σ[input]] := rfl
  rw [halloc1] at hE
  constructor
  · rw [hbody, hE, List.append_assoc]
    exact List.getElem?_append_left h
  · have hge : σ.length ≤ (stepAnniversary cc c now
        (stepBirthday cc c now
          (stepSms cc c now
            (stepVisit cc c now
              (stepParse parse cc.customerSinceCol
                (stepParse parse cc.birthdayCol
                  (stepParse parse cc.lastSmsSentCol
                    (stepParse parse cc.lastVisitCol
                      (stepOptOut cc (alloc σ σ[input])))))))))).2 := by
      cases hf with
      | inl h2 =>
        rw [h2]
        exact Nat.le_refl σ.length
      | inr h2 =>
        refine Nat.le_trans ?_ h2
        simp [alloc]
    rw [hbody]
    intro he2
    rw [← he2] at h
    exact Nat.lt_irrefl _ (Nat.lt_of_lt_of_le h hge)

/-- Witness for C10 on a one-frame store: the input frame at id 0 is
untouched and the filter returns a fresh id. -/
theorem filter_preserves_input_witness :
    (0 < [PFrame.mk ["name"] [[("name", PValue.str "Ann")]]].length) ∧
    (((filter_customers_for_campaign (fun _ => none)
        (CustomerCols.mk "last_visit_date" "last_sms_sent_date" "birthday"
          "customer_since" "first_name" "SMS_Opt_Out")
        (Campaign.mk "Hi" none "Campaign" none none) (Date.mk 2024 1 1)
        [PFrame.mk ["name"] [[("name", PValue.str "Ann")]]] 0).1)[0]?
      = [PFrame.mk ["name"] [[("name", PValue.str "Ann")]]][0]? ∧
    (filter_customers_for_campaign (fun _ => none)
        (CustomerCols.mk "last_visit_date" "last_sms_sent_date" "birthday"
          "customer_since" "first_name" "SMS_Opt_Out")
        (Campaign.mk "Hi" none "Campaign" none none) (Date.mk 2024 1 1)
        [PFrame.mk ["name"] [[("name", PValue.str "Ann")]]] 0).2 ≠ 0) :=
  ⟨by decide,
    filter_preserves_input (fun _ => none)
      (CustomerCols.mk "last_visit_date" "last_sms_sent_date" "birthday"
        "customer_since" "first_name" "SMS_Opt_Out")
      (Campaign.mk "Hi" none "Campaign" none none) (Date.mk 2024 1 1)
      [PFrame.mk ["name"] [[("name", PValue.str "Ann")]]] 0 (by decide)⟩

end SmsCampaign
